import Mathlib

/-!
Verification of the gw1builds 2026-02-05 balance-patch scripts
(`scripts/apply-20260205-patch.py` and `scripts/apply-20260205-patch-pvp.py`).

Python strings are modelled as lists of characters (code points), Python
dicts as association lists with first-match lookup (a faithful model of
dicts, whose keys are unique), numeric JSON values as rationals, and the
uncaught-exception behaviour of `KeyError` as an `Option` result: `none`
means the process died with an uncaught exception before reaching the
persistence decision.  Console output is modelled as a list of structured
log entries, one per `print` in the edit loops, each carrying exactly the
data the source interpolates into the corresponding f-string.
-/

/-- Python strings, as lists of unicode code points. -/
abbrev Str := List Char

/-- `d[k]` for a Python dict modelled as an association list
(first matching key wins; dict keys are unique so this is faithful).
`none` models a `KeyError` on read / `k not in d` on test. -/
def alGet {α : Type} : List (Str × α) → Str → Option α
  | [], _ => none
  | (k', v) :: t, k => if k' = k then some v else alGet t k

/-- `d[k] = v` for a Python dict: overwrite the value at `k` if present,
append a new entry otherwise (insertion order at the end, as in CPython). -/
def alSet {α : Type} : List (Str × α) → Str → α → List (Str × α)
  | [], k, v => [(k, v)]
  | (k', w) :: t, k, v => if k' = k then (k, v) :: t else (k', w) :: alSet t k v

/-- `k in d`. -/
def hasKey {α : Type} (d : List (Str × α)) (k : Str) : Bool :=
  (alGet d k).isSome

/-- The keys of a dict, in insertion order. -/
def keyList {α : Type} (d : List (Str × α)) : List Str :=
  d.map Prod.fst

/-- `str(n)` for a nonnegative integer skill id. -/
def natKey (n : Nat) : Str :=
  (Nat.repr n).data

/-- Does `pat` match at the very start of `s`? -/
def leadEq : Str → Str → Bool
  | [], _ => true
  | _ :: _, [] => false
  | p :: ps, c :: cs => p = c && leadEq ps cs

/-- Index of the leftmost occurrence of `pat` in `s` (Python `s.find(pat)`,
with `none` for `-1`).  The empty pattern occurs at index 0. -/
def findSub (pat : Str) : Str → Option Nat
  | [] => if leadEq pat [] then some 0 else none
  | c :: t => if leadEq pat (c :: t) then some 0 else (findSub pat t).map (· + 1)

/-- Python `pat in s`. -/
def occursIn (pat s : Str) : Bool :=
  (findSub pat s).isSome

/-- Python `s.replace(old, new, 1)`: splice `new` over the leftmost
occurrence of `old`; `s` unchanged when `old` does not occur. -/
def replaceFirst (s old new : Str) : Str :=
  match findSub old s with
  | none => s
  | some i => s.take i ++ new ++ s.drop (i + old.length)

/-- `pat` occurs in `s` starting at index `i`. -/
def OccursAt (pat s : Str) (i : Nat) : Prop :=
  ∃ pre post, s = pre ++ pat ++ post ∧ pre.length = i

/-- `sub` is a contiguous substring of `s`. -/
def ContainsSub (sub s : Str) : Prop :=
  ∃ pre post, s = pre ++ sub ++ post

/-- A mechanical record: numeric fields of one skill (`skilldata.json`). -/
abbrev MRec := List (Str × ℚ)

/-- The `skilldata` collection: id (as a string) → mechanical record. -/
abbrev MStore := List (Str × MRec)

/-- A description record: text fields of one skill (`skilldesc-en.json`). -/
abbrev DRec := List (Str × Str)

/-- The `skilldesc` collection: id (as a string) → description record. -/
abbrev DStore := List (Str × DRec)

/-- One description edit `(skill_id, field, old_text, new_text)`. -/
structure DescEdit where
  id : Nat
  field : Str
  old : Str
  new : Str
deriving DecidableEq

/-- One console line of the edit loops, carrying the data the source
interpolates into the corresponding f-string. -/
inductive Entry where
  /-- `WARNING: Skill ID {id} not found` (mechanical lookup miss). -/
  | mechMissing (id : Nat)
  /-- `[{id}] {field}: {oldv} → {newv}` (mechanical field overwritten). -/
  | mechSet (id : Nat) (field : Str) (oldv newv : ℚ)
  /-- `WARNING: Skill ID {id} not found in skilldesc` (description miss). -/
  | descMissing (id : Nat)
  /-- `WARNING: [{id} {name}] '{old}' not found in {field}` plus
  `Current {field}: {current}` (substring precondition failed). -/
  | descNoMatch (id : Nat) (name old field current : Str)
  /-- `[{id} {name}] {field}: '{old}' → '{new}'` (description edit applied). -/
  | descOk (id : Nat) (name field old new : Str)
deriving DecidableEq

/-- The two lines printed by the description editors on a substring
mismatch in `apply-20260205-patch.py` (`' not found in'` line and the
`Current {field}:` line), rendered as the source's f-strings build them. -/
def renderNoMatch (id : Nat) (name old field current : Str) : Str × Str :=
  ("  WARNING: [".data ++ natKey id ++ " ".data ++ name ++ "] '".data ++ old
     ++ "' not found in ".data ++ field,
   "    Current ".data ++ field ++ ": ".data ++ current)

/-- The two mismatch lines of `apply-20260205-patch-pvp.py` (its second
line reads `Current: {value}` without the field name). -/
def renderNoMatchP (id : Nat) (name old field current : Str) : Str × Str :=
  ("  WARNING: [".data ++ natKey id ++ " ".data ++ name ++ "] '".data ++ old
     ++ "' not found in ".data ++ field,
   "    Current: ".data ++ current)

/-- Accumulator of `apply_mechanical_changes` (non-PvP script): an applied
count and the console log.  Note there is no failure counter. -/
structure MAcc where
  applied : Nat
  log : List Entry
deriving DecidableEq

/-- Accumulator of `apply_description_changes` (non-PvP script). -/
structure DAcc where
  applied : Nat
  failed : Nat
  log : List Entry
deriving DecidableEq

/-- Inner loop of `apply_mechanical_changes`: `for field, new_val in
updates.items(): old_val = sd[key][field]; sd[key][field] = new_val`.
`none` models the uncaught `KeyError` when the field is absent. -/
def mechFields (key : Str) (id : Nat) :
    List (Str × ℚ) → MStore → MAcc → Option (MStore × MAcc)
  | [], st, acc => some (st, acc)
  | (f, v) :: fus, st, acc =>
    match alGet st key with
    | none => none
    | some r =>
      match alGet r f with
      | none => none
      | some oldv =>
        mechFields key id fus (alSet st key (alSet r f v))
          ⟨acc.applied + 1, acc.log ++ [.mechSet id f oldv v]⟩

/-- Outer loop of `apply_mechanical_changes` (non-PvP script): a lookup
miss prints a warning and continues — it is not counted anywhere. -/
def applyMechChanges1 :
    List (Nat × List (Str × ℚ)) → MStore → MAcc → Option (MStore × MAcc)
  | [], st, acc => some (st, acc)
  | (id, updates) :: cs, st, acc =>
    if hasKey st (natKey id) then
      match mechFields (natKey id) id updates st acc with
      | none => none
      | some (st', acc') => applyMechChanges1 cs st' acc'
    else
      applyMechChanges1 cs st ⟨acc.applied, acc.log ++ [.mechMissing id]⟩

/-- Loop of `apply_description_changes` (non-PvP script).  A lookup miss
or a substring mismatch is counted in `failed` and processing continues;
a missing field (or missing `name`) is an uncaught `KeyError` (`none`). -/
def applyDescChanges1 :
    List DescEdit → DStore → DAcc → Option (DStore × DAcc)
  | [], st, acc => some (st, acc)
  | e :: es, st, acc =>
    match alGet st (natKey e.id) with
    | none =>
      applyDescChanges1 es st
        ⟨acc.applied, acc.failed + 1, acc.log ++ [.descMissing e.id]⟩
    | some r =>
      match alGet r e.field with
      | none => none
      | some cur =>
        if occursIn e.old cur then
          match alGet (alSet r e.field (replaceFirst cur e.old e.new)) "name".data with
          | none => none
          | some nm =>
            applyDescChanges1 es
              (alSet st (natKey e.id) (alSet r e.field (replaceFirst cur e.old e.new)))
              ⟨acc.applied + 1, acc.failed,
               acc.log ++ [.descOk e.id nm e.field e.old e.new]⟩
        else
          match alGet r "name".data with
          | none => none
          | some nm =>
            applyDescChanges1 es st
              ⟨acc.applied, acc.failed + 1,
               acc.log ++ [.descNoMatch e.id nm e.old e.field cur]⟩

/-- Accumulator of the PvP script's `main`: both pipelines share one
`failed` counter. -/
structure PAcc where
  mechApplied : Nat
  descApplied : Nat
  failed : Nat
  log : List Entry
deriving DecidableEq

/-- Inner field loop of the PvP mechanical pass (same statements as
`mechFields`, but counting into the shared accumulator). -/
def pvpMechFields (key : Str) (id : Nat) :
    List (Str × ℚ) → MStore → PAcc → Option (MStore × PAcc)
  | [], st, acc => some (st, acc)
  | (f, v) :: fus, st, acc =>
    match alGet st key with
    | none => none
    | some r =>
      match alGet r f with
      | none => none
      | some oldv =>
        pvpMechFields key id fus (alSet st key (alSet r f v))
          ⟨acc.mechApplied + 1, acc.descApplied, acc.failed,
           acc.log ++ [.mechSet id f oldv v]⟩

/-- PvP mechanical loop: a lookup miss increments the shared `failed`. -/
def pvpMechChanges :
    List (Nat × List (Str × ℚ)) → MStore → PAcc → Option (MStore × PAcc)
  | [], st, acc => some (st, acc)
  | (id, updates) :: cs, st, acc =>
    if hasKey st (natKey id) then
      match pvpMechFields (natKey id) id updates st acc with
      | none => none
      | some (st', acc') => pvpMechChanges cs st' acc'
    else
      pvpMechChanges cs st
        ⟨acc.mechApplied, acc.descApplied, acc.failed + 1,
         acc.log ++ [.mechMissing id]⟩

/-- PvP description loop (same statements as `applyDescChanges1`, with
the shared accumulator). -/
def pvpDescChanges :
    List DescEdit → DStore → PAcc → Option (DStore × PAcc)
  | [], st, acc => some (st, acc)
  | e :: es, st, acc =>
    match alGet st (natKey e.id) with
    | none =>
      pvpDescChanges es st
        ⟨acc.mechApplied, acc.descApplied, acc.failed + 1,
         acc.log ++ [.descMissing e.id]⟩
    | some r =>
      match alGet r e.field with
      | none => none
      | some cur =>
        if occursIn e.old cur then
          match alGet (alSet r e.field (replaceFirst cur e.old e.new)) "name".data with
          | none => none
          | some nm =>
            pvpDescChanges es
              (alSet st (natKey e.id) (alSet r e.field (replaceFirst cur e.old e.new)))
              ⟨acc.mechApplied, acc.descApplied + 1, acc.failed,
               acc.log ++ [.descOk e.id nm e.field e.old e.new]⟩
        else
          match alGet r "name".data with
          | none => none
          | some nm =>
            pvpDescChanges es st
              ⟨acc.mechApplied, acc.descApplied, acc.failed + 1,
               acc.log ++ [.descNoMatch e.id nm e.old e.field cur]⟩

/-- Outcome of one run of the non-PvP script's `main` (reached only when
no `KeyError` was raised): the counts it printed, the log, the write
action (`some` = both files rewritten with these contents, `none` =
no file written) and the process exit status. -/
structure Run1 where
  mechApplied : Nat
  descApplied : Nat
  descFailed : Nat
  log : List Entry
  writes : Option (MStore × DStore)
  exit : Nat

/-- Outcome of one run of the PvP script's `main`. -/
structure RunP where
  mechApplied : Nat
  descApplied : Nat
  failed : Nat
  log : List Entry
  writes : Option (MStore × DStore)
  exit : Nat

/-- Part of `changes1` (split to keep elaboration cheap). -/
def changes1Part0 : List (Nat × List (Str × ℚ)) := [
  (1406, [("recharge".data, 15)]),
  (1467, [("recharge".data, 3)]),
  (908, [("energy".data, 5)]),
  (430, [("activation".data, 1)]),
  (947, [("activation".data, 3)]),
  (466, [("activation".data, 3)]),
  (464, [("activation".data, 3)]),
  (467, [("activation".data, 3)]),
  (471, [("activation".data, 3)]),
  (477, [("activation".data, 3)]),
  (870, [("activation".data, 3)]),
  (470, [("activation".data, 3)]),
  (1473, [("activation".data, 3)]),
  (1725, [("activation".data, 3)]),
  (468, [("activation".data, 3)]),
  (1472, [("activation".data, 3)]),
  (1213, [("activation".data, 3)]),
  (265, [("recharge".data, 20)]),
  (847, [("recharge".data, 6)]),
  (1692, [("energy".data, 5)]),
  (269, [("activation".data, (1 : ℚ) / 4), ("recharge".data, 15)]),
  (264, [("recharge".data, 15)]),
  (253, [("energy".data, 5)]),
  (2137, [("activation".data, 1)]),
  (1061, [("activation".data, 1)]),
  (55, [("energy".data, 5), ("activation".data, 1)]),
  (1348, [("energy".data, 5), ("activation".data, (1 : ℚ) / 4)]),
  (1334, [("activation".data, (1 : ℚ) / 4)]),
  (35, [("energy".data, 10)]),
  (1338, [("energy".data, 5)])
]

/-- Part of `changes1` (split to keep elaboration cheap). -/
def changes1Part1 : List (Nat × List (Str × ℚ)) := [
  (1355, [("recharge".data, 10)]),
  (763, [("energy".data, 5)]),
  (1358, [("energy".data, 10), ("activation".data, 1)]),
  (2193, [("energy".data, 5)]),
  (175, [("energy".data, 10)]),
  (2001, [("energy".data, 5)]),
  (802, [("energy".data, 5)]),
  (1654, [("energy".data, 5)]),
  (876, [("recharge".data, 15)]),
  (1648, [("activation".data, 1)]),
  (914, [("activation".data, (1 : ℚ) / 4)]),
  (980, [("energy".data, 5)]),
  (2072, [("energy".data, 5)]),
  (794, [("recharge".data, 15)]),
  (1268, [("activation".data, 1)]),
  (1737, [("energy".data, 5)]),
  (1755, [("energy".data, 5)]),
  (1525, [("activation".data, 1)]),
  (2014, [("recharge".data, 10)]),
  (1545, [("adrenaline".data, 5)]),
  (1533, [("energy".data, 5)]),
  (1779, [("recharge".data, 10)]),
  (1568, [("adrenaline".data, 2)]),
  (1569, [("adrenaline".data, 3)]),
  (1579, [("activation".data, (1 : ℚ) / 4), ("recharge".data, 5)]),
  (1560, [("energy".data, 15)]),
  (1570, [("adrenaline".data, 3)])
]

/-- The `changes` table of `apply_mechanical_changes`, in source order. -/
def changes1 : List (Nat × List (Str × ℚ)) :=
  changes1Part0 ++ changes1Part1

/-- Part of `descChanges1` (split to keep elaboration cheap). -/
def descChanges1Part0 : List DescEdit := [
  ⟨2067, "description".data, "gain 1...5 strikes".data, "gain 1...6 strikes".data⟩,
  ⟨2067, "concise".data, "gain 1...5 strikes".data, "gain 1...6 strikes".data⟩,
  ⟨1141, "description".data, "below 50% Health".data, "below 90% Health".data⟩,
  ⟨1141, "concise".data, "under 50% Health".data, "under 90% Health".data⟩,
  ⟨1405, "description".data, "+10...40 damage".data, "+10...90 damage".data⟩,
  ⟨1405, "concise".data, "+10...40 damage".data, "+10...90 damage".data⟩,
  ⟨1406, "description".data, "Dazed for 5...20 seconds".data, "Dazed for 5 seconds".data⟩,
  ⟨1406, "concise".data, "Dazed (5...20 seconds)".data, "Dazed (5 seconds)".data⟩,
  ⟨1408, "description".data, "For 10 seconds, whenever you use an adrenal skill, that skill recharges for 5 seconds".data, "For 8 seconds, whenever you use an adrenal skill, that skill recharges for 3 seconds".data⟩,
  ⟨1408, "concise".data, "For 10 seconds, adrenal skills have a 5 second recharge".data, "For 8 seconds, adrenal skills have a 3 second recharge".data⟩,
  ⟨1467, "description".data, "+10...25 damage".data, "+10...35 damage".data⟩,
  ⟨1467, "concise".data, "+10...25 damage".data, "+10...35 damage".data⟩,
  ⟨908, "description".data, "+10...35 damage and all your non-attack skills are disabled for 10 seconds".data, "+25...55 damage and all your non-attack skills are disabled for 5 seconds".data⟩,
  ⟨908, "concise".data, "Deals +10...35 damage.".data, "Deals +25...55 damage.".data⟩,
  ⟨908, "concise".data, "disabled (10 seconds)".data, "disabled (5 seconds)".data⟩,
  ⟨449, "description".data, "last 30...150% longer".data, "last 30...300% longer".data⟩,
  ⟨449, "concise".data, "last 30...150% longer".data, "last 30...300% longer".data⟩,
  ⟨852, "description".data, "foes adjacent to your target".data, "foes in the area of your target".data⟩,
  ⟨852, "concise".data, "to adjacent foes".data, "to foes in the area".data⟩,
  ⟨947, "description".data, "dies after 30...150 seconds".data, "dies after 30...240 seconds".data⟩,
  ⟨947, "concise".data, "30...150 second lifespan".data, "30...240 second lifespan".data⟩,
  ⟨466, "description".data, "dies after 30...150 seconds".data, "dies after 30...240 seconds".data⟩,
  ⟨466, "concise".data, "30...150 second lifespan".data, "30...240 second lifespan".data⟩,
  ⟨464, "description".data, "dies after 30...150 seconds".data, "dies after 30...240 seconds".data⟩,
  ⟨464, "concise".data, "30...150 second lifespan".data, "30...240 second lifespan".data⟩,
  ⟨1212, "description".data, "dies after 30...150 seconds".data, "dies after 30...240 seconds".data⟩,
  ⟨1212, "concise".data, "30...150 second lifespan".data, "30...240 second lifespan".data⟩,
  ⟨997, "description".data, "takes 10...35 damage".data, "takes 20...70 damage".data⟩,
  ⟨997, "description".data, "dies after 30...90 seconds".data, "dies after 30...180 seconds".data⟩,
  ⟨997, "concise".data, "Deals 10...35 damage".data, "Deals 20...70 damage".data⟩,
  ⟨997, "concise".data, "30...90 lifespan".data, "30...180 lifespan".data⟩,
  ⟨467, "description".data, "dies after 15...45 seconds".data, "dies after 15...90 seconds".data⟩,
  ⟨467, "concise".data, "15...45 second lifespan".data, "15...90 second lifespan".data⟩,
  ⟨471, "description".data, "dies after 30...90 seconds".data, "dies after 30...180 seconds".data⟩,
  ⟨471, "concise".data, "30...90 second lifespan".data, "30...180 second lifespan".data⟩,
  ⟨465, "description".data, "dies after 30...150 seconds".data, "dies after 30...240 seconds".data⟩,
  ⟨465, "concise".data, "30...150 second lifespan".data, "30...240 second lifespan".data⟩,
  ⟨1730, "description".data, "dies after 30...60 seconds".data, "dies after 30...120 seconds".data⟩,
  ⟨1730, "concise".data, "30...60 second lifespan".data, "30...120 second lifespan".data⟩,
  ⟨961, "description".data, "dies after 30...150 seconds".data, "dies after 30...240 seconds".data⟩
]

/-- Part of `descChanges1` (split to keep elaboration cheap). -/
def descChanges1Part1 : List DescEdit := [
  ⟨961, "concise".data, "30...150 second lifespan".data, "30...240 second lifespan".data⟩,
  ⟨477, "description".data, "dies after 30...90 seconds".data, "dies after 30...180 seconds".data⟩,
  ⟨477, "concise".data, "30...90 second lifespan".data, "30...180 second lifespan".data⟩,
  ⟨870, "description".data, "dies after 30...90 seconds".data, "dies after 30...180 seconds".data⟩,
  ⟨870, "concise".data, "30...90 second lifespan".data, "30...180 second lifespan".data⟩,
  ⟨470, "description".data, "dies after 30...150 seconds".data, "dies after 30...240 seconds".data⟩,
  ⟨470, "concise".data, "30...150 second lifespan".data, "30...240 second lifespan".data⟩,
  ⟨1473, "description".data, "dies after 30...90 seconds".data, "dies after 30...180 seconds".data⟩,
  ⟨1473, "concise".data, "30...90 second lifespan".data, "30...180 second lifespan".data⟩,
  ⟨1725, "description".data, "dies after 30...60 seconds".data, "dies after 30...180 seconds".data⟩,
  ⟨1725, "concise".data, "30...60 second lifespan".data, "30...180 second lifespan".data⟩,
  ⟨468, "description".data, "dies after 30...150 seconds".data, "dies after 30...240 seconds".data⟩,
  ⟨468, "concise".data, "30...150 second lifespan".data, "30...240 second lifespan".data⟩,
  ⟨1472, "description".data, "dies after 30...90 seconds".data, "dies after 30...180 seconds".data⟩,
  ⟨1472, "concise".data, "30...90 second lifespan".data, "30...180 second lifespan".data⟩,
  ⟨1213, "description".data, "dies after 15...60 seconds".data, "dies after 30...120 seconds".data⟩,
  ⟨1213, "concise".data, "15...60 second lifespan".data, "30...120 second lifespan".data⟩,
  ⟨462, "description".data, "dies after 30...150 seconds".data, "dies after 30...240 seconds".data⟩,
  ⟨462, "concise".data, "30...150 second lifespan".data, "30...240 second lifespan".data⟩,
  ⟨265, "description".data, "For 8...20 seconds".data, "For 4...12 seconds".data⟩,
  ⟨265, "concise".data, "(8...20 seconds.)".data, "(4...12 seconds.)".data⟩,
  ⟨847, "description".data, "20...80 Health. Your next Healing or Protection Prayer <sic/> spell that targets an ally heals for an additional 20...80 Health".data, "20...100 Health. Your next Healing or Protection Prayer <sic/> spell that targets an ally heals for an additional 20...100 Health".data⟩,
  ⟨847, "concise".data, "Heals for 20...80. Your next Healing or Protection Prayer <sic/> spell that targets an ally heals for +20...80 Health".data, "Heals for 20...100. Your next Healing or Protection Prayer <sic/> spell that targets an ally heals for +20...100 Health".data⟩,
  ⟨264, "description".data, "For 8...20 seconds".data, "For 4...8 seconds".data⟩,
  ⟨264, "concise".data, "(8...20 seconds.)".data, "(4...8 seconds.)".data⟩,
  ⟨1129, "description".data, "takes 15...75 holy damage. If your target was below 33% Health".data, "takes 30...130 holy damage. If your target was below 50% Health".data⟩,
  ⟨1129, "concise".data, "Deals 15...75 holy damage.".data, "Deals 30...130 holy damage.".data⟩,
  ⟨1129, "concise".data, "below 33% Health".data, "below 50% Health".data⟩,
  ⟨1348, "description".data, "foes near that ally".data, "foes in the area of that ally".data⟩,
  ⟨1348, "concise".data, "from foes near this ally".data, "from foes in the area of this ally".data⟩,
  ⟨900, "description".data, "all nearby foes attack".data, "all foes in the area attack".data⟩,
  ⟨900, "concise".data, "Also hexes foes near your target".data, "Also hexes foes in the area of your target".data⟩,
  ⟨1355, "description".data, "For 30 seconds".data, "For 60 seconds".data⟩,
  ⟨1355, "concise".data, "(30 seconds.)".data, "(60 seconds.)".data⟩,
  ⟨763, "description".data, "the next 1...15 seconds".data, "the next 1...20 seconds".data⟩,
  ⟨763, "concise".data, "(1...15 seconds)".data, "(1...20 seconds)".data⟩,
  ⟨863, "description".data, "lose 25...15% maximum Health".data, "lose 10...3% maximum Health".data⟩,
  ⟨863, "concise".data, "lose 25...15% maximum Health".data, "lose 10...3% maximum Health".data⟩,
  ⟨124, "description".data, "you lose 10...5 Energy".data, "you lose 8...3 Energy".data⟩,
  ⟨124, "concise".data, "lose 10...5 Energy".data, "lose 8...3 Energy".data⟩
]

/-- Part of `descChanges1` (split to keep elaboration cheap). -/
def descChanges1Part2 : List DescEdit := [
  ⟨168, "description".data, "For 1...5 seconds".data, "For 1...8 seconds".data⟩,
  ⟨168, "concise".data, "(1...5 seconds.)".data, "(1...8 seconds.)".data⟩,
  ⟨233, "description".data, "For 5 seconds".data, "For 3...7 seconds".data⟩,
  ⟨233, "concise".data, "(5 seconds.)".data, "(3...7 seconds.)".data⟩,
  ⟨1097, "description".data, "For 1...6 seconds".data, "For 1...8 seconds".data⟩,
  ⟨1097, "concise".data, "(1...6 seconds.)".data, "(1...8 seconds.)".data⟩,
  ⟨1029, "description".data, "lose 10...4 Energy".data, "lose 10...3 Energy".data⟩,
  ⟨1029, "concise".data, "lose 10...4 Energy".data, "lose 10...3 Energy".data⟩,
  ⟨1642, "description".data, "skills are disabled for 10 seconds".data, "skills are disabled for 3 seconds".data⟩,
  ⟨1642, "concise".data, "skills are disabled (10 seconds.)".data, "skills are disabled (3 seconds.)".data⟩,
  ⟨785, "description".data, "gains 33% less benefit from healing".data, "gains 50% less benefit from healing".data⟩,
  ⟨785, "concise".data, "receives 33% less from healing".data, "receives 50% less from healing".data⟩,
  ⟨1991, "description".data, "gain 10...40 Health".data, "gain 10...45 Health".data⟩,
  ⟨1991, "concise".data, "gain 10...40 Health".data, "gain 10...45 Health".data⟩,
  ⟨801, "description".data, "For 1...3 seconds".data, "For 1...6 seconds".data⟩,
  ⟨801, "concise".data, "(1...3 seconds.)".data, "(1...6 seconds.)".data⟩,
  ⟨827, "description".data, "additional 33% chance of being a critical hit".data, "additional 50% chance of being a critical hit".data⟩,
  ⟨827, "concise".data, "+33% chance to land a critical hit".data, "+50% chance to land a critical hit".data⟩,
  ⟨914, "description".data, "steal 5...60 Health".data, "steal 5...70 Health".data⟩,
  ⟨914, "description".data, "creatures in the area of that foe".data, "creatures in earshot of that foe".data⟩,
  ⟨914, "concise".data, "Steals 5...60 Health".data, "Steals 5...70 Health".data⟩,
  ⟨914, "concise".data, "creatures in the area of target foe".data, "creatures in earshot of target foe".data⟩,
  ⟨1264, "description".data, "10...40 lightning (maximum 135) damage".data, "10...60 lightning (maximum 135) damage".data⟩,
  ⟨1264, "concise".data, "10...40 lightning damage (maximum 135)".data, "10...60 lightning damage (maximum 135)".data⟩,
  ⟨1235, "description".data, "For 5...15 seconds".data, "For 5...20 seconds".data⟩,
  ⟨1235, "description".data, "deal 1...15 less damage".data, "deal 3...20 less damage".data⟩,
  ⟨1235, "concise".data, "(5...15 seconds)".data, "(5...20 seconds)".data⟩,
  ⟨1235, "concise".data, "Reduces damage by 1...15".data, "Reduces damage by 3...20".data⟩,
  ⟨1244, "description".data, "For 5...20 seconds".data, "For 5...30 seconds".data⟩,
  ⟨1244, "concise".data, "(5...20 seconds.)".data, "(5...30 seconds.)".data⟩,
  ⟨794, "description".data, "For 3...9 seconds".data, "For 3...14 seconds".data⟩,
  ⟨794, "concise".data, "(3...9 seconds.)".data, "(3...14 seconds.)".data⟩,
  ⟨2149, "description".data, "For 4...10 seconds".data, "For 5...20 seconds".data⟩,
  ⟨2149, "concise".data, "(4...10 seconds.)".data, "(5...20 seconds.)".data⟩,
  ⟨1737, "description".data, "For 10...30 seconds".data, "For 10...40 seconds".data⟩,
  ⟨1737, "concise".data, "(10...30 seconds.)".data, "(10...40 seconds.)".data⟩,
  ⟨1502, "description".data, "gain 1 Energy for each enchantment on you (maximum 1...7 Energy)".data, "gain 2 Energy for each enchantment on you (maximum 2...7 Energy)".data⟩,
  ⟨1502, "concise".data, "gain 1 Energy (maximum 1...7)".data, "gain 2 Energy (maximum 2...7)".data⟩,
  ⟨1528, "description".data, "healed for 15...60 Health for each Enchantment on you (maximum 150)".data, "healed for 60 Health for each Enchantment on you (maximum 60...240)".data⟩,
  ⟨1528, "concise".data, "Heals for 15...60 (maximum 150)".data, "Heals for 60 (maximum 60...240)".data⟩
]

/-- Part of `descChanges1` (split to keep elaboration cheap). -/
def descChanges1Part3 : List DescEdit := [
  ⟨1760, "description".data, "+3...15 earth damage".data, "+3...30 earth damage".data⟩,
  ⟨1760, "concise".data, "+3...15 earth damage".data, "+3...30 earth damage".data⟩,
  ⟨1766, "description".data, "conditions expire 25% faster".data, "conditions expire 50% faster".data⟩,
  ⟨1766, "concise".data, "conditions expire 25% faster".data, "conditions expire 50% faster".data⟩,
  ⟨1756, "description".data, "transfer 1 condition".data, "transfer 1...3 conditions".data⟩,
  ⟨1756, "concise".data, "transfer 1 condition".data, "transfer 1...3 conditions".data⟩,
  ⟨1755, "description".data, "Disease for 1...2 seconds".data, "Disease for 1...10 seconds".data⟩,
  ⟨1755, "concise".data, "Diseased (1...2 seconds.)".data, "Diseased (1...10 seconds.)".data⟩,
  ⟨1529, "description".data, "also lose 1...2 hexes".data, "also lose 1...3 hexes".data⟩,
  ⟨1529, "concise".data, "lose 1...2 hexes".data, "lose 1...3 hexes".data⟩,
  ⟨2014, "description".data, "foes nearby your target are also Crippled".data, "foes in the area of your target are also Crippled".data⟩,
  ⟨2014, "concise".data, "foes nearby your target".data, "foes in the area of your target".data⟩,
  ⟨1545, "description".data, "15...65 cold damage".data, "15...75 cold damage".data⟩,
  ⟨1545, "concise".data, "15...65 cold damage".data, "15...75 cold damage".data⟩,
  ⟨1586, "description".data, "more than 250...100 damage".data, "more than 250...80 damage".data⟩,
  ⟨1586, "concise".data, "damage over 250...100".data, "damage over 250...80".data⟩,
  ⟨1775, "description".data, "that ally gains 1 Energy".data, "that ally gains 1...2 Energy".data⟩,
  ⟨1775, "concise".data, "gains 1 Energy".data, "gains 1...2 Energy".data⟩,
  ⟨2075, "description".data, "For 3...11 seconds".data, "For 3...15 seconds".data⟩,
  ⟨2075, "concise".data, "(3...11 seconds.)".data, "(3...15 seconds.)".data⟩,
  ⟨2207, "description".data, "gains 1...4 strikes of adrenaline".data, "gains 1...8 strikes of adrenaline".data⟩,
  ⟨2207, "concise".data, "gains 1...4 strikes".data, "gains 1...8 strikes".data⟩,
  ⟨1583, "description".data, "gain 2 Energy (maximum 8...12 Energy)".data, "gain 2...4 Energy (maximum 8...12 Energy)".data⟩,
  ⟨1583, "concise".data, "gain 2 Energy (maximum 8...12 Energy)".data, "gain 2...4 Energy (maximum 8...12 Energy)".data⟩,
  ⟨1570, "description".data, "next 1...3 skills".data, "next 1...6 skills".data⟩,
  ⟨1570, "concise".data, "next 1...3 skills".data, "next 1...6 skills".data⟩
]

/-- The `changes` list of `apply_description_changes`, in source order. -/
def descChanges1 : List DescEdit :=
  descChanges1Part0 ++ descChanges1Part1 ++ descChanges1Part2 ++ descChanges1Part3

/-- The `mech_changes` table of the PvP script, in source order. -/
def mechChangesP : List (Nat × List (Str × ℚ)) := [
  (3289, [("energy".data, 5), ("activation".data, 1)]),
  (3398, [("recharge".data, 15)]),
  (3018, [("activation".data, 3)]),
  (3273, [("recharge".data, 10)])
]

/-- The `desc_changes` list of the PvP script, in source order. -/
def descChangesP : List DescEdit := [
  ⟨2895, "description".data, "For 5 seconds".data, "For 4 seconds".data⟩,
  ⟨2895, "concise".data, "(5 seconds.)".data, "(4 seconds.)".data⟩,
  ⟨3179, "description".data, "For 10...40 seconds, whenever you use a signet, you gain 5...60 Health.".data, "For 10...40 seconds, you have +3 armor for each signet you have equipped. Whenever you use a signet you gain 5...60 Health.".data⟩,
  ⟨3179, "concise".data, "(10...40 seconds.) You gain 5...60 Health each time you use a signet.".data, "(10...40 seconds.) You have +3 armor for each signet. You gain 5...60 Health each time you use a signet.".data⟩,
  ⟨3186, "description".data, "all nearby foes attack".data, "all foes in the area attack".data⟩,
  ⟨3186, "concise".data, "foes near your target".data, "foes in the area of your target".data⟩,
  ⟨2860, "description".data, "For 7 seconds".data, "For 10 seconds".data⟩,
  ⟨2860, "concise".data, "(7 seconds.)".data, "(10 seconds.)".data⟩,
  ⟨2803, "description".data, "additional 10...40 cold damage".data, "additional 10...60 cold damage".data⟩,
  ⟨2803, "concise".data, "+10...40 cold damage".data, "+10...60 cold damage".data⟩
]


/-- `main` of `apply-20260205-patch.py`, as a function of the loaded
`skilldata` and `skilldesc` collections: run the mechanical editor, run
the description editor, then exit 1 without writing when `desc_failed >
0`, else write both files and exit 0.  Only the description pipeline's
failure count is consulted. -/
def main1 (sd : MStore) (dd : DStore) : Option Run1 :=
  match applyMechChanges1 changes1 sd ⟨0, []⟩ with
  | none => none
  | some (sd', macc) =>
    match applyDescChanges1 descChanges1 dd ⟨0, 0, []⟩ with
    | none => none
    | some (dd', dacc) =>
      if dacc.failed > 0 then
        some ⟨macc.applied, dacc.applied, dacc.failed,
              macc.log ++ dacc.log, none, 1⟩
      else
        some ⟨macc.applied, dacc.applied, dacc.failed,
              macc.log ++ dacc.log, some (sd', dd'), 0⟩

/-- `main` of `apply-20260205-patch-pvp.py`: both pipelines feed one
shared `failed` counter; exit 1 without writing when `failed > 0`, else
write both files and exit 0. -/
def mainPvp (sd : MStore) (dd : DStore) : Option RunP :=
  match pvpMechChanges mechChangesP sd ⟨0, 0, 0, []⟩ with
  | none => none
  | some (sd', acc1) =>
    match pvpDescChanges descChangesP dd acc1 with
    | none => none
    | some (dd', acc2) =>
      if acc2.failed > 0 then
        some ⟨acc2.mechApplied, acc2.descApplied, acc2.failed,
              acc2.log, none, 1⟩
      else
        some ⟨acc2.mechApplied, acc2.descApplied, acc2.failed,
              acc2.log, some (sd', dd'), 0⟩

/-- Totality precondition of the description loops: whenever an edit's id
resolves, the resolved record has the edit's field and a `name` field
(else the loop raises `KeyError`). -/
def DescPre (st : DStore) (cs : List DescEdit) : Prop :=
  ∀ e ∈ cs, ∀ r, alGet st (natKey e.id) = some r →
    hasKey r e.field = true ∧ hasKey r "name".data = true

/-- Totality precondition of the mechanical loops: whenever an entry's id
resolves, the resolved record has every field of the update map. -/
def MechPre (st : MStore) (cs : List (Nat × List (Str × ℚ))) : Prop :=
  ∀ c ∈ cs, ∀ r, alGet st (natKey c.1) = some r →
    ∀ fu ∈ c.2, hasKey r fu.1 = true

/-- A synthetic `skilldata` store built from a mechanical change table:
one record per entry, holding exactly the fields the entry updates. -/
def mkMechStore (cs : List (Nat × List (Str × ℚ))) : MStore :=
  cs.map (fun c => (natKey c.1, c.2))

/-- Concatenation of the old texts that a description change table aims
at a given `(id, field)` pair, in table order. -/
def oldsFor (cs : List DescEdit) (i : Nat) (f : Str) : Str :=
  ((cs.filter (fun e => e.id == i && e.field == f)).map DescEdit.old).foldr
    (· ++ ·) []

/-- The distinct ids of a description change table, in first-seen order. -/
def descIds (cs : List DescEdit) : List Nat :=
  (cs.map DescEdit.id).dedup

/-- A synthetic description record on which every edit of the table aimed
at id `i` succeeds when applied in order. -/
def mkDescRecordFor (cs : List DescEdit) (i : Nat) : DRec :=
  [("name".data, "n".data),
   ("description".data, oldsFor cs i "description".data),
   ("concise".data, oldsFor cs i "concise".data)]

/-- A synthetic `skilldesc` store satisfying every substring precondition
of the table. -/
def mkDescStore (cs : List DescEdit) : DStore :=
  (descIds cs).map (fun i => (natKey i, mkDescRecordFor cs i))

/-- Concrete description store on which all 146 description edits of the
non-PvP script succeed. -/
def ddCtx : DStore := mkDescStore descChanges1

/-- Concrete mechanical store holding every change-table id except 1406,
so that exactly one mechanical lookup miss occurs. -/
def sdCtx : MStore := mkMechStore (changes1.filter (fun c => c.1 != 1406))

/-- Placeholder run outcome (used only as the default of `Option.getD`). -/
def emptyRun1 : Run1 := ⟨0, 0, 0, [], none, 0⟩

/-- Placeholder run outcome for the PvP script. -/
def emptyRunP : RunP := ⟨0, 0, 0, [], none, 0⟩

/-- The outcome of the non-PvP `main` on two empty stores (all lookups
miss; nothing is written). -/
def run10 : Run1 := (main1 [] []).getD emptyRun1

/-- The outcome of the PvP `main` on two empty stores. -/
def runP0 : RunP := (mainPvp [] []).getD emptyRunP

/-- The outcome of the non-PvP `main` on the synthetic stores `sdCtx`,
`ddCtx` (one mechanical miss, all description edits succeed). -/
def runCtx : Run1 := (main1 sdCtx ddCtx).getD emptyRun1

/-- One hexadecimal digit, lower case (as `%04x` renders it). -/
def hexDigit (n : Nat) : Char :=
  if n < 10 then Char.ofNat (48 + n) else Char.ofNat (87 + n)

/-- The JSON escape of one character with `ensure_ascii=False`: only the
quote, the backslash and control characters below U+0020 are escaped;
every other character — in particular every non-ASCII character — is
emitted verbatim. -/
def escChar (c : Char) : Str :=
  if c = '"' then ['\\', '"']
  else if c = '\\' then ['\\', '\\']
  else if c = '\n' then ['\\', 'n']
  else if c = '\t' then ['\\', 't']
  else if c = '\r' then ['\\', 'r']
  else if c = '\x08' then ['\\', 'b']
  else if c = '\x0c' then ['\\', 'f']
  else if c.toNat < 32 then
    ['\\', 'u', '0', '0', hexDigit (c.toNat / 16), hexDigit (c.toNat % 16)]
  else [c]

/-- JSON escape of a string body. -/
def escStr (s : Str) : Str :=
  s.foldr (fun c acc => escChar c ++ acc) []

/-- A JSON string literal: quoted, escaped body. -/
def quoteJ (s : Str) : Str :=
  '"' :: (escStr s ++ ['"'])

/-- `indent * d` for `indent='\t'`. -/
def tabs (d : Nat) : Str :=
  List.replicate d '\t'

mutual
/-- A JSON tree as these data files use it: strings, numbers and objects.
Numbers are carried as exact rationals; their decimal rendering (Python's
`repr` of the loaded `int`/`float`) is a parameter of the serializer. -/
inductive JVal : Type where
  | jstr : Str → JVal
  | jnum : ℚ → JVal
  | jobj : JMembers → JVal
/-- The ordered members of a JSON object. -/
inductive JMembers : Type where
  | nil : JMembers
  | cons : Str → JVal → JMembers → JMembers
end

mutual
/-- `json.dump(v, f, ensure_ascii=False, indent='\t')` at nesting depth
`d`, parameterised by the number rendering `rnum`. -/
def dumpJ (rnum : ℚ → Str) (d : Nat) : JVal → Str
  | .jstr s => quoteJ s
  | .jnum q => rnum q
  | .jobj ms => '{' :: dumpMems rnum d ms
/-- The remainder of an object literal after its `{`: empty objects close
at once; otherwise one line per member, indented with `d + 1` tabs and
separated by `,`, then a closing line with `d` tabs and `}`. -/
def dumpMems (rnum : ℚ → Str) (d : Nat) : JMembers → Str
  | .nil => ['}']
  | .cons k v .nil =>
    '\n' :: (tabs (d + 1) ++ quoteJ k ++ ": ".data ++ dumpJ rnum (d + 1) v)
      ++ '\n' :: (tabs d ++ ['}'])
  | .cons k v (.cons k1 v1 ms) =>
    '\n' :: (tabs (d + 1) ++ quoteJ k ++ ": ".data ++ dumpJ rnum (d + 1) v)
      ++ ',' :: dumpMems rnum d (.cons k1 v1 ms)
end

/-- `save_json`: `json.dump(..., ensure_ascii=False, indent='\t')`
followed by `f.write('\n')`. -/
def saveJson (rnum : ℚ → Str) (v : JVal) : Str :=
  dumpJ rnum 0 v ++ ['\n']

/-- The exact byte run a member `(k, v)` of an object serialized at depth
`d` contributes to the output: a newline, `d + 1` tabs, the quoted key,
a colon and space, and the member's own serialization at depth `d + 1`. -/
def memberSeg (rnum : ℚ → Str) (d : Nat) (k : Str) (v : JVal) : Str :=
  '\n' :: (tabs (d + 1) ++ quoteJ k ++ ": ".data ++ dumpJ rnum (d + 1) v)

/-- `(k, v)` is one of the members. -/
def MemberOf (k : Str) (v : JVal) : JMembers → Prop
  | .nil => False
  | .cons k1 v1 ms => (k = k1 ∧ v = v1) ∨ MemberOf k v ms

theorem alGet_alSet_self {α : Type} (d : List (Str × α)) (k : Str) (v : α) :
    alGet (alSet d k v) k = some v := by
  induction d with
  | nil => simp [alSet, alGet]
  | cons hd t ih =>
    obtain ⟨k', w⟩ := hd
    by_cases h : k' = k <;> simp [alSet, alGet, h, ih]

theorem alGet_alSet_ne {α : Type} (d : List (Str × α)) (k k' : Str) (v : α)
    (h : k' ≠ k) : alGet (alSet d k v) k' = alGet d k' := by
  induction d with
  | nil => simp [alSet, alGet, Ne.symm h]
  | cons hd t ih =>
    obtain ⟨k0, w⟩ := hd
    by_cases h0 : k0 = k
    · subst h0
      simp [alSet, alGet, Ne.symm h]
    · simp [alSet, alGet, h0, ih]

theorem hasKey_iff_mem {α : Type} (d : List (Str × α)) (k : Str) :
    hasKey d k = true ↔ k ∈ keyList d := by
  induction d with
  | nil => simp [hasKey, alGet, keyList]
  | cons hd t ih =>
    obtain ⟨k0, w⟩ := hd
    by_cases h0 : k0 = k
    · subst h0
      constructor
      · intro _
        exact List.mem_cons_self _ _
      · intro _
        simp [hasKey, alGet]
    · constructor
      · intro hh
        have ht : hasKey t k = true := by
          simpa [hasKey, alGet, h0] using hh
        exact List.mem_cons_of_mem k0 (ih.mp ht)
      · intro hh
        rcases List.mem_cons.mp hh with h1 | h2
        · exact absurd h1.symm h0
        · have := ih.mpr h2
          simpa [hasKey, alGet, h0] using this

theorem keyList_alSet {α : Type} (d : List (Str × α)) (k : Str) (v : α)
    (h : hasKey d k = true) : keyList (alSet d k v) = keyList d := by
  induction d with
  | nil => simp [hasKey, alGet] at h
  | cons hd t ih =>
    obtain ⟨k0, w⟩ := hd
    by_cases h0 : k0 = k
    · subst h0
      simp [alSet, keyList]
    · have ht : hasKey t k = true := by
        simpa [hasKey, alGet, h0] using h
      have := ih ht
      simp only [alSet, if_neg h0, keyList, List.map_cons] at this ⊢
      rw [this]

theorem hasKey_congr {α β : Type} {r1 : List (Str × α)} {r0 : List (Str × β)}
    (h : keyList r1 = keyList r0) (f : Str) : hasKey r1 f = hasKey r0 f := by
  by_cases h1 : hasKey r1 f = true
  · have := (hasKey_iff_mem r0 f).mpr (h ▸ (hasKey_iff_mem r1 f).mp h1)
    rw [h1, this]
  · have h0 : ¬ hasKey r0 f = true := fun hh =>
      h1 ((hasKey_iff_mem r1 f).mpr (h ▸ (hasKey_iff_mem r0 f).mp hh))
    simp only [Bool.not_eq_true] at h1 h0
    rw [h1, h0]

theorem hasKey_alSet_field {α : Type} (r : List (Str × α)) (f : Str) (v : α)
    (h : hasKey r f = true) (g : Str) : hasKey (alSet r f v) g = hasKey r g :=
  hasKey_congr (keyList_alSet r f v h) g

theorem leadEq_iff (pat s : Str) : leadEq pat s = true ↔ ∃ t, s = pat ++ t := by
  induction pat generalizing s with
  | nil =>
    simp [leadEq]
  | cons p ps ih =>
    cases s with
    | nil => simp [leadEq]
    | cons c cs =>
      simp only [leadEq, Bool.and_eq_true, decide_eq_true_eq, ih,
        List.cons_append, List.cons.injEq]
      constructor
      · rintro ⟨h1, t, h2⟩
        exact ⟨t, h1.symm, h2⟩
      · rintro ⟨t, h1, h2⟩
        exact ⟨h1.symm, t, h2⟩

theorem occursAt_zero (pat s : Str) : OccursAt pat s 0 ↔ ∃ t, s = pat ++ t := by
  constructor
  · rintro ⟨pre, post, h, hl⟩
    have : pre = [] := List.length_eq_zero.mp hl
    subst this
    exact ⟨post, by simpa using h⟩
  · rintro ⟨t, h⟩
    exact ⟨[], t, by simpa using h, rfl⟩

theorem occursAt_cons_succ (pat : Str) (c : Char) (t : Str) (j : Nat) :
    OccursAt pat (c :: t) (j + 1) ↔ OccursAt pat t j := by
  constructor
  · rintro ⟨pre, post, h, hl⟩
    cases pre with
    | nil => simp at hl
    | cons d pre' =>
      simp only [List.cons_append, List.cons.injEq] at h
      exact ⟨pre', post, h.2, by simpa using hl⟩
  · rintro ⟨pre, post, h, hl⟩
    exact ⟨c :: pre, post, by simp [h], by simp [hl]⟩

theorem findSub_some (pat s : Str) (i : Nat) (h : findSub pat s = some i) :
    OccursAt pat s i := by
  induction s generalizing i with
  | nil =>
    rw [findSub] at h
    split at h
    · rename_i hl
      obtain ⟨t, ht⟩ := (leadEq_iff pat []).mp hl
      obtain ⟨rfl⟩ : i = 0 := by simpa using h.symm
      exact (occursAt_zero pat []).mpr ⟨t, ht⟩
    · exact absurd h (by simp)
  | cons c t ih =>
    rw [findSub] at h
    split at h
    · rename_i hl
      obtain ⟨u, hu⟩ := (leadEq_iff pat (c :: t)).mp hl
      obtain ⟨rfl⟩ : i = 0 := by simpa using h.symm
      exact (occursAt_zero pat (c :: t)).mpr ⟨u, hu⟩
    · obtain ⟨j, hj, rfl⟩ := Option.map_eq_some'.mp h
      exact (occursAt_cons_succ pat c t j).mpr (ih j hj)

theorem findSub_least (pat s : Str) (i : Nat) (h : findSub pat s = some i) :
    ∀ j, j < i → ¬ OccursAt pat s j := by
  induction s generalizing i with
  | nil =>
    rw [findSub] at h
    split at h
    · obtain ⟨rfl⟩ : i = 0 := by simpa using h.symm
      intro j hj
      exact absurd hj (by simp)
    · exact absurd h (by simp)
  | cons c t ih =>
    rw [findSub] at h
    split at h
    · obtain ⟨rfl⟩ : i = 0 := by simpa using h.symm
      intro j hj
      exact absurd hj (by simp)
    · rename_i hl
      obtain ⟨j0, hj0, rfl⟩ := Option.map_eq_some'.mp h
      intro j hj
      cases j with
      | zero =>
        intro hocc
        obtain ⟨u, hu⟩ := (occursAt_zero pat (c :: t)).mp hocc
        exact hl ((leadEq_iff pat (c :: t)).mpr ⟨u, hu⟩)
      | succ j' =>
        intro hocc
        exact ih j0 hj0 j' (by omega) ((occursAt_cons_succ pat c t j').mp hocc)

theorem findSub_none (pat s : Str) (h : findSub pat s = none) :
    ∀ j, ¬ OccursAt pat s j := by
  induction s with
  | nil =>
    rw [findSub] at h
    split at h
    · exact absurd h (by simp)
    · rename_i hl
      intro j hocc
      obtain ⟨pre, post, hs, _⟩ := hocc
      have hnil : (pre ++ pat = [] ∧ post = []) := List.append_eq_nil.mp hs.symm
      have hpat : pat = [] := (List.append_eq_nil.mp hnil.1).2
      exact hl ((leadEq_iff pat []).mpr ⟨[], by simp [hpat]⟩)
  | cons c t ih =>
    rw [findSub] at h
    split at h
    · exact absurd h (by simp)
    · rename_i hl
      have ht : findSub pat t = none := by
        cases hft : findSub pat t with
        | none => rfl
        | some j => simp [hft] at h
      intro j hocc
      cases j with
      | zero =>
        obtain ⟨u, hu⟩ := (occursAt_zero pat (c :: t)).mp hocc
        exact hl ((leadEq_iff pat (c :: t)).mpr ⟨u, hu⟩)
      | succ j' =>
        exact ih ht j' ((occursAt_cons_succ pat c t j').mp hocc)

theorem occursIn_iff (pat s : Str) :
    occursIn pat s = true ↔ ContainsSub pat s := by
  constructor
  · intro h
    obtain ⟨i, hi⟩ := Option.isSome_iff_exists.mp h
    obtain ⟨pre, post, hs, _⟩ := findSub_some pat s i hi
    exact ⟨pre, post, hs⟩
  · rintro ⟨pre, post, hs⟩
    by_contra hne
    have hnone : findSub pat s = none := by
      cases hf : findSub pat s with
      | none => rfl
      | some j => simp [occursIn, hf] at hne
    exact findSub_none pat s hnone pre.length ⟨pre, post, hs, rfl⟩

theorem replaceFirst_spec (s old new : Str) (h : occursIn old s = true) :
    ∃ pre post, s = pre ++ old ++ post ∧
      (∀ j, j < pre.length → ¬ OccursAt old s j) ∧
      replaceFirst s old new = pre ++ new ++ post := by
  unfold occursIn at h
  obtain ⟨i, hi⟩ := Option.isSome_iff_exists.mp h
  obtain ⟨pre, post, hs, hlen⟩ := findSub_some old s i hi
  subst hlen
  refine ⟨pre, post, hs, ?_, ?_⟩
  · intro j hj
    exact findSub_least old s pre.length hi j hj
  · have h1 : s.take pre.length = pre := by
      rw [hs, List.append_assoc]
      exact List.take_left pre (old ++ post)
    have h2 : s.drop (pre.length + old.length) = post := by
      rw [hs]
      have := List.drop_left (pre ++ old) post
      rwa [List.length_append] at this
    simp only [replaceFirst, hi]
    rw [h1, h2]

theorem descStep_miss (e : DescEdit) (es : List DescEdit) (st : DStore)
    (acc : DAcc) (h : alGet st (natKey e.id) = none) :
    applyDescChanges1 (e :: es) st acc =
      applyDescChanges1 es st
        ⟨acc.applied, acc.failed + 1, acc.log ++ [.descMissing e.id]⟩ := by
  simp only [applyDescChanges1, h]

theorem descStep_noMatch (e : DescEdit) (es : List DescEdit) (st : DStore)
    (acc : DAcc) (r : DRec) (cur nm : Str)
    (h1 : alGet st (natKey e.id) = some r)
    (h2 : alGet r e.field = some cur)
    (h3 : occursIn e.old cur = false)
    (h4 : alGet r "name".data = some nm) :
    applyDescChanges1 (e :: es) st acc =
      applyDescChanges1 es st
        ⟨acc.applied, acc.failed + 1,
         acc.log ++ [.descNoMatch e.id nm e.old e.field cur]⟩ := by
  simp only [applyDescChanges1, h1, h2, h3, h4, Bool.false_eq_true, if_false]

theorem descStep_ok (e : DescEdit) (es : List DescEdit) (st : DStore)
    (acc : DAcc) (r : DRec) (cur nm : Str)
    (h1 : alGet st (natKey e.id) = some r)
    (h2 : alGet r e.field = some cur)
    (h3 : occursIn e.old cur = true)
    (h4 : alGet (alSet r e.field (replaceFirst cur e.old e.new)) "name".data
            = some nm) :
    applyDescChanges1 (e :: es) st acc =
      applyDescChanges1 es
        (alSet st (natKey e.id) (alSet r e.field (replaceFirst cur e.old e.new)))
        ⟨acc.applied + 1, acc.failed,
         acc.log ++ [.descOk e.id nm e.field e.old e.new]⟩ := by
  simp only [applyDescChanges1, h1, h2, h3, h4, if_true]

theorem mechStep_miss (id : Nat) (updates : List (Str × ℚ))
    (cs : List (Nat × List (Str × ℚ))) (st : MStore) (acc : MAcc)
    (h : hasKey st (natKey id) = false) :
    applyMechChanges1 ((id, updates) :: cs) st acc =
      applyMechChanges1 cs st
        ⟨acc.applied, acc.log ++ [.mechMissing id]⟩ := by
  simp only [applyMechChanges1, h, Bool.false_eq_true, if_false]

theorem pvpDescStep_miss (e : DescEdit) (es : List DescEdit) (st : DStore)
    (acc : PAcc) (h : alGet st (natKey e.id) = none) :
    pvpDescChanges (e :: es) st acc =
      pvpDescChanges es st
        ⟨acc.mechApplied, acc.descApplied, acc.failed + 1,
         acc.log ++ [.descMissing e.id]⟩ := by
  simp only [pvpDescChanges, h]

theorem pvpDescStep_noMatch (e : DescEdit) (es : List DescEdit) (st : DStore)
    (acc : PAcc) (r : DRec) (cur nm : Str)
    (h1 : alGet st (natKey e.id) = some r)
    (h2 : alGet r e.field = some cur)
    (h3 : occursIn e.old cur = false)
    (h4 : alGet r "name".data = some nm) :
    pvpDescChanges (e :: es) st acc =
      pvpDescChanges es st
        ⟨acc.mechApplied, acc.descApplied, acc.failed + 1,
         acc.log ++ [.descNoMatch e.id nm e.old e.field cur]⟩ := by
  simp only [pvpDescChanges, h1, h2, h3, h4, Bool.false_eq_true, if_false]

theorem pvpDescStep_ok (e : DescEdit) (es : List DescEdit) (st : DStore)
    (acc : PAcc) (r : DRec) (cur nm : Str)
    (h1 : alGet st (natKey e.id) = some r)
    (h2 : alGet r e.field = some cur)
    (h3 : occursIn e.old cur = true)
    (h4 : alGet (alSet r e.field (replaceFirst cur e.old e.new)) "name".data
            = some nm) :
    pvpDescChanges (e :: es) st acc =
      pvpDescChanges es
        (alSet st (natKey e.id) (alSet r e.field (replaceFirst cur e.old e.new)))
        ⟨acc.mechApplied, acc.descApplied + 1, acc.failed,
         acc.log ++ [.descOk e.id nm e.field e.old e.new]⟩ := by
  simp only [pvpDescChanges, h1, h2, h3, h4, if_true]

theorem pvpMechStep_miss (id : Nat) (updates : List (Str × ℚ))
    (cs : List (Nat × List (Str × ℚ))) (st : MStore) (acc : PAcc)
    (h : hasKey st (natKey id) = false) :
    pvpMechChanges ((id, updates) :: cs) st acc =
      pvpMechChanges cs st
        ⟨acc.mechApplied, acc.descApplied, acc.failed + 1,
         acc.log ++ [.mechMissing id]⟩ := by
  simp only [pvpMechChanges, h, Bool.false_eq_true, if_false]

theorem mechFields_shape (key : Str) (id : Nat) (fus : List (Str × ℚ))
    (st st' : MStore) (acc acc' : MAcc)
    (h : mechFields key id fus st acc = some (st', acc')) :
    keyList st' = keyList st ∧
    ∀ k r', alGet st' k = some r' →
      ∃ r, alGet st k = some r ∧ keyList r' = keyList r := by
  induction fus generalizing st acc with
  | nil =>
    rw [mechFields] at h
    obtain ⟨rfl, rfl⟩ : st = st' ∧ acc = acc' := by
      constructor <;> [exact congrArg Prod.fst (Option.some.inj h);
        exact congrArg Prod.snd (Option.some.inj h)]
    exact ⟨rfl, fun k r' hk => ⟨r', hk, rfl⟩⟩
  | cons fu fus ih =>
    obtain ⟨f, v⟩ := fu
    cases hr : alGet st key with
    | none =>
      simp only [mechFields, hr] at h
      exact Option.noConfusion h
    | some r =>
      cases hf : alGet r f with
      | none =>
        simp only [mechFields, hr, hf] at h
        exact Option.noConfusion h
      | some oldv =>
        simp only [mechFields, hr, hf] at h
        obtain ⟨hkeys, hrec⟩ := ih _ _ h
        have hkeyr : hasKey r f = true := by simp [hasKey, hf]
        have hkeyst : hasKey st key = true := by simp [hasKey, hr]
        refine ⟨hkeys.trans (keyList_alSet _ _ _ hkeyst), ?_⟩
        intro k r' hk
        obtain ⟨r1, hr1, hkl⟩ := hrec k r' hk
        by_cases hkk : k = key
        · subst hkk
          rw [alGet_alSet_self] at hr1
          obtain rfl : alSet r f v = r1 := Option.some.inj hr1
          exact ⟨r, hr, hkl.trans (keyList_alSet _ _ _ hkeyr)⟩
        · rw [alGet_alSet_ne _ _ _ _ hkk] at hr1
          exact ⟨r1, hr1, hkl⟩

theorem applyMechChanges1_shape (cs : List (Nat × List (Str × ℚ)))
    (st st' : MStore) (acc acc' : MAcc)
    (h : applyMechChanges1 cs st acc = some (st', acc')) :
    keyList st' = keyList st ∧
    ∀ k r', alGet st' k = some r' →
      ∃ r, alGet st k = some r ∧ keyList r' = keyList r := by
  induction cs generalizing st acc with
  | nil =>
    rw [applyMechChanges1] at h
    obtain ⟨rfl, rfl⟩ : st = st' ∧ acc = acc' := by
      constructor <;> [exact congrArg Prod.fst (Option.some.inj h);
        exact congrArg Prod.snd (Option.some.inj h)]
    exact ⟨rfl, fun k r' hk => ⟨r', hk, rfl⟩⟩
  | cons c cs ih =>
    obtain ⟨id, updates⟩ := c
    cases hk : hasKey st (natKey id) with
    | false =>
      rw [mechStep_miss _ _ _ _ _ hk] at h
      exact ih _ _ h
    | true =>
      cases hm : mechFields (natKey id) id updates st acc with
      | none =>
        simp only [applyMechChanges1, hk, if_true, hm] at h
        exact Option.noConfusion h
      | some p =>
        obtain ⟨st1, acc1⟩ := p
        simp only [applyMechChanges1, hk, if_true, hm] at h
        obtain ⟨hkeys1, hrec1⟩ := mechFields_shape _ _ _ _ _ _ _ hm
        obtain ⟨hkeys2, hrec2⟩ := ih _ _ h
        refine ⟨hkeys2.trans hkeys1, ?_⟩
        intro k r' hkr
        obtain ⟨r1, hr1, hkl1⟩ := hrec2 k r' hkr
        obtain ⟨r0, hr0, hkl0⟩ := hrec1 k r1 hr1
        exact ⟨r0, hr0, hkl1.trans hkl0⟩

theorem applyDescChanges1_shape (cs : List DescEdit) (st st' : DStore)
    (acc acc' : DAcc)
    (h : applyDescChanges1 cs st acc = some (st', acc')) :
    keyList st' = keyList st ∧
    ∀ k r', alGet st' k = some r' →
      ∃ r, alGet st k = some r ∧ keyList r' = keyList r ∧
        ∀ f, (∀ e ∈ cs, e.field ≠ f) → alGet r' f = alGet r f := by
  induction cs generalizing st acc with
  | nil =>
    rw [applyDescChanges1] at h
    obtain ⟨rfl, rfl⟩ : st = st' ∧ acc = acc' := by
      constructor <;> [exact congrArg Prod.fst (Option.some.inj h);
        exact congrArg Prod.snd (Option.some.inj h)]
    exact ⟨rfl, fun k r' hk => ⟨r', hk, rfl, fun f _ => rfl⟩⟩
  | cons e es ih =>
    cases hr : alGet st (natKey e.id) with
    | none =>
      rw [descStep_miss _ _ _ _ hr] at h
      obtain ⟨hkeys, hrec⟩ := ih _ _ h
      refine ⟨hkeys, ?_⟩
      intro k r' hk
      obtain ⟨r1, h1, hkl, hfr⟩ := hrec k r' hk
      exact ⟨r1, h1, hkl,
        fun f hf => hfr f (fun e' he' => hf e' (List.mem_cons_of_mem _ he'))⟩
    | some r =>
      cases hc : alGet r e.field with
      | none =>
        simp only [applyDescChanges1, hr, hc] at h
        exact Option.noConfusion h
      | some cur =>
        cases ho : occursIn e.old cur with
        | false =>
          cases hn : alGet r "name".data with
          | none =>
            simp only [applyDescChanges1, hr, hc, ho, Bool.false_eq_true,
              if_false, hn] at h
            exact Option.noConfusion h
          | some nm =>
            rw [descStep_noMatch _ _ _ _ _ _ _ hr hc ho hn] at h
            obtain ⟨hkeys, hrec⟩ := ih _ _ h
            refine ⟨hkeys, ?_⟩
            intro k r' hk
            obtain ⟨r1, h1, hkl, hfr⟩ := hrec k r' hk
            exact ⟨r1, h1, hkl,
              fun f hf => hfr f (fun e' he' => hf e' (List.mem_cons_of_mem _ he'))⟩
        | true =>
          cases hn : alGet (alSet r e.field (replaceFirst cur e.old e.new))
              "name".data with
          | none =>
            simp only [applyDescChanges1, hr, hc, ho, if_true, hn] at h
            exact Option.noConfusion h
          | some nm =>
            rw [descStep_ok _ _ _ _ _ _ _ hr hc ho hn] at h
            obtain ⟨hkeys, hrec⟩ := ih _ _ h
            have hkf : hasKey r e.field = true := by simp [hasKey, hc]
            have hkst : hasKey st (natKey e.id) = true := by simp [hasKey, hr]
            refine ⟨hkeys.trans (keyList_alSet _ _ _ hkst), ?_⟩
            intro k r' hk
            obtain ⟨r1, h1, hkl, hfr⟩ := hrec k r' hk
            by_cases hkk : k = natKey e.id
            · subst hkk
              rw [alGet_alSet_self] at h1
              obtain rfl : alSet r e.field (replaceFirst cur e.old e.new) = r1 :=
                Option.some.inj h1
              refine ⟨r, hr, hkl.trans (keyList_alSet _ _ _ hkf), ?_⟩
              intro f hf
              have h2 : alGet r' f
                  = alGet (alSet r e.field (replaceFirst cur e.old e.new)) f :=
                hfr f (fun e' he' => hf e' (List.mem_cons_of_mem _ he'))
              rw [h2, alGet_alSet_ne _ _ _ _
                (Ne.symm (hf e (List.mem_cons_self _ _)))]
            · rw [alGet_alSet_ne _ _ _ _ hkk] at h1
              exact ⟨r1, h1, hkl,
                fun f hf => hfr f
                  (fun e' he' => hf e' (List.mem_cons_of_mem _ he'))⟩

theorem mechFields_total (key : Str) (id : Nat) (fus : List (Str × ℚ))
    (st : MStore) (acc : MAcc) (r : MRec) (hr : alGet st key = some r)
    (hf : ∀ fu ∈ fus, hasKey r fu.1 = true) :
    (mechFields key id fus st acc).isSome = true := by
  induction fus generalizing st acc r with
  | nil => simp [mechFields]
  | cons fu fus ih =>
    obtain ⟨f, v⟩ := fu
    obtain ⟨oldv, hov⟩ := Option.isSome_iff_exists.mp
      (hf (f, v) (List.mem_cons_self _ _))
    simp only [mechFields, hr, hov]
    exact ih (alSet st key (alSet r f v)) _ (alSet r f v)
      (alGet_alSet_self _ _ _)
      (fun fu hfu => by
        rw [hasKey_alSet_field _ _ _ (by simp [hasKey, hov])]
        exact hf fu (List.mem_cons_of_mem _ hfu))

theorem applyMechChanges1_total (cs : List (Nat × List (Str × ℚ)))
    (st : MStore) (acc : MAcc) (hpre : MechPre st cs) :
    (applyMechChanges1 cs st acc).isSome = true := by
  induction cs generalizing st acc with
  | nil => simp [applyMechChanges1]
  | cons c cs ih =>
    obtain ⟨id, updates⟩ := c
    cases hk : hasKey st (natKey id) with
    | false =>
      rw [mechStep_miss _ _ _ _ _ hk]
      exact ih _ _ (fun c hc r hr fu hfu =>
        hpre c (List.mem_cons_of_mem _ hc) r hr fu hfu)
    | true =>
      obtain ⟨r, hr⟩ := Option.isSome_iff_exists.mp hk
      have hsome := mechFields_total (natKey id) id updates st acc r hr
        (fun fu hfu => hpre (id, updates) (List.mem_cons_self _ _) r hr fu hfu)
      obtain ⟨p, hp⟩ := Option.isSome_iff_exists.mp hsome
      obtain ⟨st1, acc1⟩ := p
      simp only [applyMechChanges1, hk, if_true, hp]
      obtain ⟨hkeys, hrec⟩ := mechFields_shape _ _ _ _ _ _ _ hp
      refine ih _ _ ?_
      intro c hc r1 hr1 fu hfu
      obtain ⟨r0, hr0, hkl⟩ := hrec _ _ hr1
      rw [hasKey_congr hkl]
      exact hpre c (List.mem_cons_of_mem _ hc) r0 hr0 fu hfu

theorem applyDescChanges1_total (cs : List DescEdit) (st : DStore)
    (acc : DAcc) (hpre : DescPre st cs) :
    (applyDescChanges1 cs st acc).isSome = true := by
  induction cs generalizing st acc with
  | nil => simp [applyDescChanges1]
  | cons e es ih =>
    have hpre_tail_same : ∀ st0 : DStore, keyList st0 = keyList st →
        (∀ k r', alGet st0 k = some r' →
          ∃ r, alGet st k = some r ∧ keyList r' = keyList r) →
        DescPre st0 es := by
      intro st0 _ hrec e' he' r' hr'
      obtain ⟨r0, hr0, hkl⟩ := hrec _ _ hr'
      rw [hasKey_congr hkl, hasKey_congr hkl]
      exact hpre e' (List.mem_cons_of_mem _ he') r0 hr0
    cases hr : alGet st (natKey e.id) with
    | none =>
      rw [descStep_miss _ _ _ _ hr]
      exact ih _ _ (fun e' he' r hr' =>
        hpre e' (List.mem_cons_of_mem _ he') r hr')
    | some r =>
      obtain ⟨hkf, hkn⟩ := hpre e (List.mem_cons_self _ _) r hr
      obtain ⟨cur, hc⟩ := Option.isSome_iff_exists.mp hkf
      cases ho : occursIn e.old cur with
      | false =>
        obtain ⟨nm, hn⟩ := Option.isSome_iff_exists.mp hkn
        rw [descStep_noMatch _ _ _ _ _ _ _ hr hc ho hn]
        exact ih _ _ (fun e' he' r0 hr' =>
          hpre e' (List.mem_cons_of_mem _ he') r0 hr')
      | true =>
        have hkn' : hasKey (alSet r e.field (replaceFirst cur e.old e.new))
            "name".data = true := by
          rw [hasKey_alSet_field _ _ _ hkf]
          exact hkn
        obtain ⟨nm, hn⟩ := Option.isSome_iff_exists.mp hkn'
        rw [descStep_ok _ _ _ _ _ _ _ hr hc ho hn]
        refine ih _ _ ?_
        intro e' he' r' hr'
        by_cases hkk : natKey e'.id = natKey e.id
        · rw [hkk, alGet_alSet_self] at hr'
          obtain rfl := Option.some.inj hr'
          rw [hasKey_alSet_field _ _ _ hkf, hasKey_alSet_field _ _ _ hkf]
          exact hpre e' (List.mem_cons_of_mem _ he') r (hkk ▸ hr)
        · rw [alGet_alSet_ne _ _ _ _ hkk] at hr'
          exact hpre e' (List.mem_cons_of_mem _ he') r' hr'

theorem applyDescChanges1_append (xs ys : List DescEdit) (st : DStore)
    (acc : DAcc) :
    applyDescChanges1 (xs ++ ys) st acc =
      (applyDescChanges1 xs st acc).bind
        (fun p => applyDescChanges1 ys p.1 p.2) := by
  induction xs generalizing st acc with
  | nil => rfl
  | cons x xs ih =>
    cases hr : alGet st (natKey x.id) with
    | none =>
      rw [List.cons_append, descStep_miss x (xs ++ ys) st acc hr,
        descStep_miss x xs st acc hr, ih]
    | some r =>
      cases hc : alGet r x.field with
      | none =>
        simp only [List.cons_append, applyDescChanges1, hr, hc,
          Option.none_bind]
      | some cur =>
        cases ho : occursIn x.old cur with
        | false =>
          cases hn : alGet r "name".data with
          | none =>
            simp only [List.cons_append, applyDescChanges1, hr, hc, ho,
              Bool.false_eq_true, if_false, hn, Option.none_bind]
          | some nm =>
            rw [List.cons_append, descStep_noMatch _ _ _ _ _ _ _ hr hc ho hn,
              descStep_noMatch _ _ _ _ _ _ _ hr hc ho hn, ih]
        | true =>
          cases hn : alGet (alSet r x.field (replaceFirst cur x.old x.new))
              "name".data with
          | none =>
            simp only [List.cons_append, applyDescChanges1, hr, hc, ho,
              if_true, hn, Option.none_bind]
          | some nm =>
            rw [List.cons_append, descStep_ok _ _ _ _ _ _ _ hr hc ho hn,
              descStep_ok _ _ _ _ _ _ _ hr hc ho hn, ih]

theorem pvpDescChanges_append (xs ys : List DescEdit) (st : DStore)
    (acc : PAcc) :
    pvpDescChanges (xs ++ ys) st acc =
      (pvpDescChanges xs st acc).bind
        (fun p => pvpDescChanges ys p.1 p.2) := by
  induction xs generalizing st acc with
  | nil => rfl
  | cons x xs ih =>
    cases hr : alGet st (natKey x.id) with
    | none =>
      rw [List.cons_append, pvpDescStep_miss x (xs ++ ys) st acc hr,
        pvpDescStep_miss x xs st acc hr, ih]
    | some r =>
      cases hc : alGet r x.field with
      | none =>
        simp only [List.cons_append, pvpDescChanges, hr, hc,
          Option.none_bind]
      | some cur =>
        cases ho : occursIn x.old cur with
        | false =>
          cases hn : alGet r "name".data with
          | none =>
            simp only [List.cons_append, pvpDescChanges, hr, hc, ho,
              Bool.false_eq_true, if_false, hn, Option.none_bind]
          | some nm =>
            rw [List.cons_append,
              pvpDescStep_noMatch _ _ _ _ _ _ _ hr hc ho hn,
              pvpDescStep_noMatch _ _ _ _ _ _ _ hr hc ho hn, ih]
        | true =>
          cases hn : alGet (alSet r x.field (replaceFirst cur x.old x.new))
              "name".data with
          | none =>
            simp only [List.cons_append, pvpDescChanges, hr, hc, ho,
              if_true, hn, Option.none_bind]
          | some nm =>
            rw [List.cons_append,
              pvpDescStep_ok _ _ _ _ _ _ _ hr hc ho hn,
              pvpDescStep_ok _ _ _ _ _ _ _ hr hc ho hn, ih]

theorem dumpMems_ends_brace (rnum : ℚ → Str) (d : Nat) :
    (ms : JMembers) → ∃ t, dumpMems rnum d ms = t ++ ['}']
  | .nil => ⟨[], rfl⟩
  | .cons k v .nil =>
    ⟨'\n' :: (tabs (d + 1) ++ quoteJ k ++ ": ".data
        ++ dumpJ rnum (d + 1) v) ++ '\n' :: tabs d, by
      simp [dumpMems, List.cons_append, List.append_assoc]⟩
  | .cons k v (.cons k1 v1 ms1) => by
    obtain ⟨t, ht⟩ := dumpMems_ends_brace rnum d (.cons k1 v1 ms1)
    refine ⟨'\n' :: (tabs (d + 1) ++ quoteJ k ++ ": ".data
      ++ dumpJ rnum (d + 1) v) ++ ',' :: t, ?_⟩
    simp [dumpMems, ht, List.cons_append, List.append_assoc]

theorem escChar_id (c : Char) (h1 : 32 ≤ c.toNat) (h2 : c ≠ '"')
    (h3 : c ≠ '\\') : escChar c = [c] := by
  have n10 : c ≠ '\n' := fun hh => by subst hh; exact absurd h1 (by decide)
  have n9 : c ≠ '\t' := fun hh => by subst hh; exact absurd h1 (by decide)
  have n13 : c ≠ '\r' := fun hh => by subst hh; exact absurd h1 (by decide)
  have n8 : c ≠ '\x08' := fun hh => by subst hh; exact absurd h1 (by decide)
  have n12 : c ≠ '\x0c' := fun hh => by subst hh; exact absurd h1 (by decide)
  rw [escChar, if_neg h2, if_neg h3, if_neg n10, if_neg n9, if_neg n13,
    if_neg n8, if_neg n12, if_neg (by omega)]

theorem escStr_id (s : Str) (h : ∀ c ∈ s, 32 ≤ c.toNat ∧ c ≠ '"' ∧ c ≠ '\\') :
    escStr s = s := by
  induction s with
  | nil => rfl
  | cons c t ih =>
    obtain ⟨h1, h2, h3⟩ := h c (List.mem_cons_self _ _)
    have : escStr (c :: t) = escChar c ++ escStr t := rfl
    rw [this, escChar_id c h1 h2 h3,
      ih (fun c hc => h c (List.mem_cons_of_mem _ hc))]
    rfl

theorem dumpMems_member (rnum : ℚ → Str) (d : Nat) (k : Str) (v : JVal) :
    (ms : JMembers) → MemberOf k v ms →
    ∃ p q, dumpMems rnum d ms =
      p ++ ('\n' :: (tabs (d + 1) ++ quoteJ k ++ ": ".data
        ++ dumpJ rnum (d + 1) v)) ++ q
  | .nil, h => absurd h id
  | .cons k1 v1 .nil, h => by
    rcases h with ⟨rfl, rfl⟩ | h
    · refine ⟨[], '\n' :: (tabs d ++ ['}']), ?_⟩
      simp [dumpMems, List.cons_append, List.append_assoc]
    · exact absurd h id
  | .cons k1 v1 (.cons k2 v2 ms2), h => by
    rcases h with ⟨rfl, rfl⟩ | h
    · refine ⟨[], ',' :: dumpMems rnum d (.cons k2 v2 ms2), ?_⟩
      simp [dumpMems, List.cons_append, List.append_assoc]
    · obtain ⟨p, q, hpq⟩ := dumpMems_member rnum d k v (.cons k2 v2 ms2) h
      refine ⟨'\n' :: (tabs (d + 1) ++ quoteJ k1 ++ ": ".data
        ++ dumpJ rnum (d + 1) v1) ++ ',' :: p, q, ?_⟩
      simp [dumpMems, hpq, List.cons_append, List.append_assoc]

theorem dumpJ_member (rnum : ℚ → Str) (d : Nat) (k : Str) (v : JVal)
    (ms : JMembers) (h : MemberOf k v ms) :
    ∃ p q, dumpJ rnum d (.jobj ms) = p ++ memberSeg rnum d k v ++ q := by
  obtain ⟨p, q, hpq⟩ := dumpMems_member rnum d k v ms h
  refine ⟨'{' :: p, q, ?_⟩
  rw [show dumpJ rnum d (.jobj ms) = '{' :: dumpMems rnum d ms from rfl, hpq]
  simp [memberSeg, List.cons_append, List.append_assoc]

/-- C1 (amended): persistence gating.  In the PvP script, both files are
written and the exit status is 0 iff the shared failure count across both
pipelines is zero, and a positive count means exit 1 with neither file
written.  In the non-PvP script the gate consults only the description
pipeline's failure count: both files are written and the exit status is 0
iff `desc_failed = 0`; mechanical lookup misses are not counted and do not
block persistence. -/
theorem persistence_gate :
    (∀ (sd : MStore) (dd : DStore) (r : Run1), main1 sd dd = some r →
      ((r.exit = 0 ∧ r.writes.isSome = true) ↔ r.descFailed = 0) ∧
      ((r.exit = 1 ∧ r.writes = none) ↔ 0 < r.descFailed)) ∧
    (∀ (sd : MStore) (dd : DStore) (r : RunP), mainPvp sd dd = some r →
      ((r.exit = 0 ∧ r.writes.isSome = true) ↔ r.failed = 0) ∧
      ((r.exit = 1 ∧ r.writes = none) ↔ 0 < r.failed)) := by
  constructor
  · intro sd dd r hmain
    cases h1 : applyMechChanges1 changes1 sd ⟨0, []⟩ with
    | none =>
      rw [main1, h1] at hmain
      exact Option.noConfusion hmain
    | some p =>
      obtain ⟨sd', macc⟩ := p
      cases h2 : applyDescChanges1 descChanges1 dd ⟨0, 0, []⟩ with
      | none =>
        simp only [main1, h1, h2] at hmain
        exact Option.noConfusion hmain
      | some q =>
        obtain ⟨dd', dacc⟩ := q
        simp only [main1, h1, h2] at hmain
        by_cases hf : dacc.failed > 0
        · rw [if_pos hf] at hmain
          obtain rfl := Option.some.inj hmain
          constructor <;> simp <;> omega
        · rw [if_neg hf] at hmain
          obtain rfl := Option.some.inj hmain
          constructor <;> simp <;> omega
  · intro sd dd r hmain
    cases h1 : pvpMechChanges mechChangesP sd ⟨0, 0, 0, []⟩ with
    | none =>
      rw [mainPvp, h1] at hmain
      exact Option.noConfusion hmain
    | some p =>
      obtain ⟨sd', acc1⟩ := p
      cases h2 : pvpDescChanges descChangesP dd acc1 with
      | none =>
        simp only [mainPvp, h1, h2] at hmain
        exact Option.noConfusion hmain
      | some q =>
        obtain ⟨dd', acc2⟩ := q
        simp only [mainPvp, h1, h2] at hmain
        by_cases hf : acc2.failed > 0
        · rw [if_pos hf] at hmain
          obtain rfl := Option.some.inj hmain
          constructor <;> simp <;> omega
        · rw [if_neg hf] at hmain
          obtain rfl := Option.some.inj hmain
          constructor <;> simp <;> omega

set_option maxRecDepth 200000 in
/-- Witness for C1 (amended): runs of both `main`s on two empty stores
(every lookup misses, `desc_failed > 0`, nothing is written, exit 1),
with the gate equivalences instantiated on them. -/
theorem persistence_gate_witness :
    (main1 [] [] = some run10 ∧
      ((run10.exit = 0 ∧ run10.writes.isSome = true) ↔ run10.descFailed = 0)) ∧
    (mainPvp [] [] = some runP0 ∧
      ((runP0.exit = 0 ∧ runP0.writes.isSome = true) ↔ runP0.failed = 0)) :=
  ⟨⟨rfl, (persistence_gate.1 [] [] run10 rfl).1⟩,
   ⟨rfl, (persistence_gate.2 [] [] runP0 rfl).1⟩⟩

set_option maxRecDepth 200000 in
/-- Counterexample to C1 as stated: on the stores `sdCtx`/`ddCtx` the
mechanical edit for skill 1406 (which is in the change table) fails with
a lookup miss — the miss warning is in the log — yet the non-PvP script
writes both files and exits 0. -/
theorem mech_miss_written_anyway :
    1406 ∈ changes1.map Prod.fst ∧
    alGet sdCtx (natKey 1406) = none ∧
    (main1 sdCtx ddCtx).map
        (fun r => (r.exit, r.writes.isSome,
          decide (Entry.mechMissing 1406 ∈ r.log))) =
      some (0, true, true) := by
  refine ⟨by decide, by decide, by decide⟩

/-- C2 (amended): a lookup miss emits a diagnostic and processing
continues with the next edit.  In the description pipelines of both
scripts and in the PvP mechanical pipeline the miss also increments the
batch failure counter; in the non-PvP mechanical pipeline there is no
failure counter at all, so the miss is logged but counted nowhere and
never reaches the persistence gate. -/
theorem lookup_miss_isolation :
    (∀ (e : DescEdit) (es : List DescEdit) (st : DStore) (acc : DAcc),
      alGet st (natKey e.id) = none →
      applyDescChanges1 (e :: es) st acc =
        applyDescChanges1 es st
          ⟨acc.applied, acc.failed + 1, acc.log ++ [.descMissing e.id]⟩) ∧
    (∀ (e : DescEdit) (es : List DescEdit) (st : DStore) (acc : PAcc),
      alGet st (natKey e.id) = none →
      pvpDescChanges (e :: es) st acc =
        pvpDescChanges es st
          ⟨acc.mechApplied, acc.descApplied, acc.failed + 1,
           acc.log ++ [.descMissing e.id]⟩) ∧
    (∀ (id : Nat) (updates : List (Str × ℚ)) (cs : List (Nat × List (Str × ℚ)))
      (st : MStore) (acc : PAcc), hasKey st (natKey id) = false →
      pvpMechChanges ((id, updates) :: cs) st acc =
        pvpMechChanges cs st
          ⟨acc.mechApplied, acc.descApplied, acc.failed + 1,
           acc.log ++ [.mechMissing id]⟩) ∧
    (∀ (id : Nat) (updates : List (Str × ℚ)) (cs : List (Nat × List (Str × ℚ)))
      (st : MStore) (acc : MAcc), hasKey st (natKey id) = false →
      applyMechChanges1 ((id, updates) :: cs) st acc =
        applyMechChanges1 cs st ⟨acc.applied, acc.log ++ [.mechMissing id]⟩) :=
  ⟨fun e es st acc h => descStep_miss e es st acc h,
   fun e es st acc h => pvpDescStep_miss e es st acc h,
   fun id updates cs st acc h => pvpMechStep_miss id updates cs st acc h,
   fun id updates cs st acc h => mechStep_miss id updates cs st acc h⟩

/-- Witness for C2 (amended): the four miss steps instantiated on empty
stores and one concrete edit. -/
theorem lookup_miss_isolation_witness :
    (alGet ([] : DStore) (natKey 9) = none ∧
      applyDescChanges1 [⟨9, "description".data, "a".data, "b".data⟩] [] ⟨0, 0, []⟩ =
        applyDescChanges1 [] []
          ⟨0, 0 + 1, [] ++ [.descMissing 9]⟩) ∧
    (hasKey ([] : MStore) (natKey 9) = false ∧
      applyMechChanges1 [(9, [("energy".data, 5)])] [] ⟨0, []⟩ =
        applyMechChanges1 [] [] ⟨0, [] ++ [.mechMissing 9]⟩) :=
  ⟨⟨rfl, lookup_miss_isolation.1 ⟨9, "description".data, "a".data, "b".data⟩
      [] [] ⟨0, 0, []⟩ rfl⟩,
   ⟨rfl, lookup_miss_isolation.2.2.2 9 [("energy".data, 5)] [] [] ⟨0, []⟩ rfl⟩⟩

set_option maxRecDepth 200000 in
/-- Counterexample to C2 as stated: the mechanical miss for skill 1406 in
the non-PvP script appears in the log, but the failure count that gates
persistence (`desc_failed`) stays 0 and both files are written. -/
theorem mech_miss_not_counted :
    alGet sdCtx (natKey 1406) = none ∧
    (main1 sdCtx ddCtx).map
        (fun r => (r.descFailed, r.writes.isSome,
          decide (Entry.mechMissing 1406 ∈ r.log))) =
      some (0, true, true) := by
  refine ⟨by decide, by decide⟩

/-- C3: a description edit whose record resolves and whose field value
contains `old` splices `new` over exactly the leftmost occurrence of
`old` (no earlier occurrence exists; the prefix before it and the suffix
after it — with every other occurrence, including any the replacement
itself introduces — are kept verbatim) and increments the applied count
by one, in both scripts' description loops. -/
theorem desc_edit_applies_leftmost (e : DescEdit) (es : List DescEdit)
    (st : DStore) (acc : DAcc) (accP : PAcc) (r : DRec) (cur nm : Str)
    (h1 : alGet st (natKey e.id) = some r)
    (h2 : alGet r e.field = some cur)
    (h3 : occursIn e.old cur = true)
    (h4 : alGet (alSet r e.field (replaceFirst cur e.old e.new)) "name".data
            = some nm) :
    ∃ pre post,
      cur = pre ++ e.old ++ post ∧
      (∀ j, j < pre.length → ¬ OccursAt e.old cur j) ∧
      replaceFirst cur e.old e.new = pre ++ e.new ++ post ∧
      applyDescChanges1 (e :: es) st acc =
        applyDescChanges1 es
          (alSet st (natKey e.id) (alSet r e.field (pre ++ e.new ++ post)))
          ⟨acc.applied + 1, acc.failed,
           acc.log ++ [.descOk e.id nm e.field e.old e.new]⟩ ∧
      pvpDescChanges (e :: es) st accP =
        pvpDescChanges es
          (alSet st (natKey e.id) (alSet r e.field (pre ++ e.new ++ post)))
          ⟨accP.mechApplied, accP.descApplied + 1, accP.failed,
           accP.log ++ [.descOk e.id nm e.field e.old e.new]⟩ := by
  obtain ⟨pre, post, hs, hleast, hrepl⟩ := replaceFirst_spec cur e.old e.new h3
  refine ⟨pre, post, hs, hleast, hrepl, ?_, ?_⟩
  · rw [descStep_ok e es st acc r cur nm h1 h2 h3 h4, hrepl]
  · rw [pvpDescStep_ok e es st accP r cur nm h1 h2 h3 h4, hrepl]

/-- Witness for C3: the spec's own example — field value `"A...B...A"`
and edit `(old := "A", new := "Z")` yields `"Z...B...A"`, with only the
leftmost `A` changed and the applied count going from 0 to 1. -/
theorem desc_edit_applies_leftmost_witness :
    (alGet [(natKey 7, [("name".data, "X".data),
        ("description".data, "A...B...A".data)])] (natKey 7) =
      some [("name".data, "X".data), ("description".data, "A...B...A".data)]) ∧
    (∃ pre post,
      ("A...B...A".data : Str) = pre ++ "A".data ++ post ∧
      (∀ j, j < pre.length → ¬ OccursAt "A".data "A...B...A".data j) ∧
      replaceFirst "A...B...A".data "A".data "Z".data = pre ++ "Z".data ++ post ∧
      applyDescChanges1 [⟨7, "description".data, "A".data, "Z".data⟩]
          [(natKey 7, [("name".data, "X".data),
            ("description".data, "A...B...A".data)])] ⟨0, 0, []⟩ =
        applyDescChanges1 []
          (alSet [(natKey 7, [("name".data, "X".data),
            ("description".data, "A...B...A".data)])] (natKey 7)
            (alSet [("name".data, "X".data),
              ("description".data, "A...B...A".data)] "description".data
              (pre ++ "Z".data ++ post)))
          ⟨0 + 1, 0, [] ++ [.descOk 7 "X".data "description".data "A".data "Z".data]⟩ ∧
      pvpDescChanges [⟨7, "description".data, "A".data, "Z".data⟩]
          [(natKey 7, [("name".data, "X".data),
            ("description".data, "A...B...A".data)])] ⟨0, 0, 0, []⟩ =
        pvpDescChanges []
          (alSet [(natKey 7, [("name".data, "X".data),
            ("description".data, "A...B...A".data)])] (natKey 7)
            (alSet [("name".data, "X".data),
              ("description".data, "A...B...A".data)] "description".data
              (pre ++ "Z".data ++ post)))
          ⟨0, 0 + 1, 0, [] ++ [.descOk 7 "X".data "description".data "A".data "Z".data]⟩) :=
  ⟨by decide,
   desc_edit_applies_leftmost ⟨7, "description".data, "A".data, "Z".data⟩ []
     [(natKey 7, [("name".data, "X".data),
       ("description".data, "A...B...A".data)])] ⟨0, 0, []⟩ ⟨0, 0, 0, []⟩
     [("name".data, "X".data), ("description".data, "A...B...A".data)]
     "A...B...A".data "X".data (by decide) (by decide) (by decide) (by decide)⟩

/-- C4: a description edit whose record resolves but whose field value
does not contain `old` increments the failure count, continues with the
store (and so the field value) unchanged, and logs a diagnostic whose
first printed line contains the attempted old text and whose second
printed line contains the full current field value — in both scripts. -/
theorem desc_mismatch_counts_and_logs (e : DescEdit) (es : List DescEdit)
    (st : DStore) (acc : DAcc) (accP : PAcc) (r : DRec) (cur nm : Str)
    (h1 : alGet st (natKey e.id) = some r)
    (h2 : alGet r e.field = some cur)
    (h3 : occursIn e.old cur = false)
    (h4 : alGet r "name".data = some nm) :
    applyDescChanges1 (e :: es) st acc =
      applyDescChanges1 es st
        ⟨acc.applied, acc.failed + 1,
         acc.log ++ [.descNoMatch e.id nm e.old e.field cur]⟩ ∧
    pvpDescChanges (e :: es) st accP =
      pvpDescChanges es st
        ⟨accP.mechApplied, accP.descApplied, accP.failed + 1,
         accP.log ++ [.descNoMatch e.id nm e.old e.field cur]⟩ ∧
    ContainsSub e.old (renderNoMatch e.id nm e.old e.field cur).1 ∧
    ContainsSub cur (renderNoMatch e.id nm e.old e.field cur).2 ∧
    ContainsSub e.old (renderNoMatchP e.id nm e.old e.field cur).1 ∧
    ContainsSub cur (renderNoMatchP e.id nm e.old e.field cur).2 := by
  refine ⟨descStep_noMatch e es st acc r cur nm h1 h2 h3 h4,
    pvpDescStep_noMatch e es st accP r cur nm h1 h2 h3 h4, ?_, ?_, ?_, ?_⟩
  · refine ⟨"  WARNING: [".data ++ natKey e.id ++ " ".data ++ nm ++ "] '".data,
      "' not found in ".data ++ e.field, ?_⟩
    simp [renderNoMatch, List.append_assoc]
  · exact ⟨"    Current ".data ++ e.field ++ ": ".data, [], by
      simp [renderNoMatch, List.append_assoc]⟩
  · refine ⟨"  WARNING: [".data ++ natKey e.id ++ " ".data ++ nm ++ "] '".data,
      "' not found in ".data ++ e.field, ?_⟩
    simp [renderNoMatchP, List.append_assoc]
  · exact ⟨"    Current: ".data, [], by simp [renderNoMatchP]⟩

/-- Witness for C4: the spec's scenario — record 200 with description
`"For 5 seconds, deal 10 damage."` and edit old-text `"For 9 seconds"`:
the substring is absent, the failure count goes 0 → 1, the store is
passed on unchanged, and the diagnostic lines carry the old text and the
current value. -/
theorem desc_mismatch_counts_and_logs_witness :
    (occursIn "For 9 seconds".data "For 5 seconds, deal 10 damage.".data
        = false) ∧
    (applyDescChanges1
        [⟨200, "description".data, "For 9 seconds".data, "For 1 second".data⟩]
        [(natKey 200, [("name".data, "X".data),
          ("description".data, "For 5 seconds, deal 10 damage.".data)])]
        ⟨0, 0, []⟩ =
      applyDescChanges1 []
        [(natKey 200, [("name".data, "X".data),
          ("description".data, "For 5 seconds, deal 10 damage.".data)])]
        ⟨0, 0 + 1, [] ++ [.descNoMatch 200 "X".data "For 9 seconds".data
          "description".data "For 5 seconds, deal 10 damage.".data]⟩) ∧
    ContainsSub "For 9 seconds".data
      (renderNoMatch 200 "X".data "For 9 seconds".data "description".data
        "For 5 seconds, deal 10 damage.".data).1 ∧
    ContainsSub "For 5 seconds, deal 10 damage.".data
      (renderNoMatch 200 "X".data "For 9 seconds".data "description".data
        "For 5 seconds, deal 10 damage.".data).2 := by
  have h := desc_mismatch_counts_and_logs
    ⟨200, "description".data, "For 9 seconds".data, "For 1 second".data⟩ []
    [(natKey 200, [("name".data, "X".data),
      ("description".data, "For 5 seconds, deal 10 damage.".data)])]
    ⟨0, 0, []⟩ ⟨0, 0, 0, []⟩
    [("name".data, "X".data),
      ("description".data, "For 5 seconds, deal 10 damage.".data)]
    "For 5 seconds, deal 10 damage.".data "X".data
    (by decide) (by decide) (by decide) (by decide)
  exact ⟨by decide, h.1, h.2.2.1, h.2.2.2.1⟩

/-- C5: a mechanical edit `(id, field, v)` on a record present in the
store yields `some`: the run applies exactly one change, logging the old
and new values; afterwards the edited record holds `v` verbatim at
`field` (whatever rational `v` is — no bounds check or coercion exists to
rule any value out), every other field of that record reads unchanged,
and every other key of the store reads unchanged. -/
theorem mech_edit_exact_overwrite (id : Nat) (f : Str) (v : ℚ)
    (cs : List (Nat × List (Str × ℚ))) (st : MStore) (acc : MAcc)
    (r : MRec) (w : ℚ)
    (hr : alGet st (natKey id) = some r)
    (hw : alGet r f = some w) :
    applyMechChanges1 ((id, [(f, v)]) :: cs) st acc =
      applyMechChanges1 cs (alSet st (natKey id) (alSet r f v))
        ⟨acc.applied + 1, acc.log ++ [.mechSet id f w v]⟩ ∧
    alGet (alSet st (natKey id) (alSet r f v)) (natKey id) = some (alSet r f v) ∧
    alGet (alSet r f v) f = some v ∧
    (∀ g, g ≠ f → alGet (alSet r f v) g = alGet r g) ∧
    (∀ k, k ≠ natKey id →
      alGet (alSet st (natKey id) (alSet r f v)) k = alGet st k) := by
  refine ⟨?_, alGet_alSet_self _ _ _, alGet_alSet_self _ _ _,
    fun g hg => alGet_alSet_ne _ _ _ _ hg,
    fun k hk => alGet_alSet_ne _ _ _ _ hk⟩
  have hk : hasKey st (natKey id) = true := by simp [hasKey, hr]
  simp only [applyMechChanges1, hk, if_true, mechFields, hr, hw]

/-- Witness for C5: the spec's scenario — record `{"100": {"energy": 10,
"recharge": 20}}` and edit `(100, energy, 5)` yields `energy = 5`,
`recharge` unchanged, and one applied change logged `10 → 5`. -/
theorem mech_edit_exact_overwrite_witness :
    (alGet [(natKey 100, [("energy".data, (10 : ℚ)), ("recharge".data, 20)])]
        (natKey 100) = some [("energy".data, (10 : ℚ)), ("recharge".data, 20)]) ∧
    (applyMechChanges1 [(100, [("energy".data, (5 : ℚ))])]
        [(natKey 100, [("energy".data, (10 : ℚ)), ("recharge".data, 20)])]
        ⟨0, []⟩ =
      applyMechChanges1 []
        (alSet [(natKey 100, [("energy".data, (10 : ℚ)), ("recharge".data, 20)])]
          (natKey 100)
          (alSet [("energy".data, (10 : ℚ)), ("recharge".data, 20)]
            "energy".data 5))
        ⟨0 + 1, [] ++ [.mechSet 100 "energy".data 10 5]⟩) ∧
    alGet (alSet [("energy".data, (10 : ℚ)), ("recharge".data, 20)]
      "energy".data 5) "energy".data = some 5 ∧
    alGet (alSet [("energy".data, (10 : ℚ)), ("recharge".data, 20)]
      "energy".data 5) "recharge".data = alGet
      [("energy".data, (10 : ℚ)), ("recharge".data, 20)] "recharge".data := by
  have h := mech_edit_exact_overwrite 100 "energy".data 5 []
    [(natKey 100, [("energy".data, (10 : ℚ)), ("recharge".data, 20)])]
    ⟨0, []⟩ [("energy".data, (10 : ℚ)), ("recharge".data, 20)] 10
    (by decide) (by decide)
  exact ⟨by decide, h.1, h.2.2.1, h.2.2.2.1 "recharge".data (by decide)⟩

set_option maxRecDepth 10000 in
/-- Counterexample to C6 as stated: with field value `"AA"` and edit
`(old := "A", new := "Z")`, the patched text `"ZA"` still contains the
old text, so the second run applies again (applied = 1, failed = 0) and
mutates the field further to `"ZZ"` instead of reporting a mismatch. -/
theorem desc_edit_twice_reapplies :
    applyDescChanges1 [⟨3, "description".data, "A".data, "Z".data⟩]
        [(natKey 3, [("name".data, "N".data), ("description".data, "AA".data)])]
        ⟨0, 0, []⟩ =
      some ([(natKey 3, [("name".data, "N".data),
          ("description".data, "ZA".data)])],
        ⟨1, 0, [.descOk 3 "N".data "description".data "A".data "Z".data]⟩) ∧
    applyDescChanges1 [⟨3, "description".data, "A".data, "Z".data⟩]
        [(natKey 3, [("name".data, "N".data), ("description".data, "ZA".data)])]
        ⟨0, 0, []⟩ =
      some ([(natKey 3, [("name".data, "N".data),
          ("description".data, "ZZ".data)])],
        ⟨1, 0, [.descOk 3 "N".data "description".data "A".data "Z".data]⟩) ∧
    ("ZZ".data : Str) ≠ "ZA".data := by
  refine ⟨by rfl, by rfl, by decide⟩

/-- C6 (amended): running the same description edit twice is rejected the
second time exactly when the first replacement removed the last
occurrence of `old` (in particular when `old` occurred once and `new`
does not reintroduce it): the first run applies the edit, and the second
run on the patched store reports the substring mismatch, counts one
failure and returns the store unchanged. -/
theorem desc_edit_twice_fails_when_gone (e : DescEdit) (st : DStore)
    (r : DRec) (cur nm : Str)
    (h1 : alGet st (natKey e.id) = some r)
    (h2 : alGet r e.field = some cur)
    (h3 : occursIn e.old cur = true)
    (h5 : occursIn e.old (replaceFirst cur e.old e.new) = false)
    (h4 : alGet (alSet r e.field (replaceFirst cur e.old e.new)) "name".data
            = some nm) :
    applyDescChanges1 [e] st ⟨0, 0, []⟩ =
      some (alSet st (natKey e.id)
          (alSet r e.field (replaceFirst cur e.old e.new)),
        ⟨1, 0, [.descOk e.id nm e.field e.old e.new]⟩) ∧
    applyDescChanges1 [e]
        (alSet st (natKey e.id)
          (alSet r e.field (replaceFirst cur e.old e.new)))
        ⟨0, 0, []⟩ =
      some (alSet st (natKey e.id)
          (alSet r e.field (replaceFirst cur e.old e.new)),
        ⟨0, 1, [.descNoMatch e.id nm e.old e.field
          (replaceFirst cur e.old e.new)]⟩) := by
  constructor
  · rw [descStep_ok e [] st ⟨0, 0, []⟩ r cur nm h1 h2 h3 h4]
    simp [applyDescChanges1]
  · rw [descStep_noMatch e []
      (alSet st (natKey e.id) (alSet r e.field (replaceFirst cur e.old e.new)))
      ⟨0, 0, []⟩ (alSet r e.field (replaceFirst cur e.old e.new))
      (replaceFirst cur e.old e.new) nm
      (alGet_alSet_self _ _ _) (alGet_alSet_self _ _ _) h5 h4]
    simp [applyDescChanges1]

/-- Witness for C6 (amended): the spec's scenario — description
`"For 5 seconds, deal 10 damage."` and edit `("For 5 seconds" →
"For 4 seconds")`: the first run patches, the second reports the
mismatch and leaves the store unchanged. -/
theorem desc_edit_twice_fails_when_gone_witness :
    (occursIn "For 5 seconds".data "For 5 seconds, deal 10 damage.".data
        = true ∧
     occursIn "For 5 seconds".data
       (replaceFirst "For 5 seconds, deal 10 damage.".data
         "For 5 seconds".data "For 4 seconds".data) = false) ∧
    (applyDescChanges1
        [⟨200, "description".data, "For 5 seconds".data, "For 4 seconds".data⟩]
        [(natKey 200, [("name".data, "X".data),
          ("description".data, "For 5 seconds, deal 10 damage.".data)])]
        ⟨0, 0, []⟩ =
      some (alSet [(natKey 200, [("name".data, "X".data),
          ("description".data, "For 5 seconds, deal 10 damage.".data)])]
          (natKey 200)
          (alSet [("name".data, "X".data),
            ("description".data, "For 5 seconds, deal 10 damage.".data)]
            "description".data
            (replaceFirst "For 5 seconds, deal 10 damage.".data
              "For 5 seconds".data "For 4 seconds".data)),
        ⟨1, 0, [.descOk 200 "X".data "description".data "For 5 seconds".data
          "For 4 seconds".data]⟩) ∧
     applyDescChanges1
        [⟨200, "description".data, "For 5 seconds".data, "For 4 seconds".data⟩]
        (alSet [(natKey 200, [("name".data, "X".data),
          ("description".data, "For 5 seconds, deal 10 damage.".data)])]
          (natKey 200)
          (alSet [("name".data, "X".data),
            ("description".data, "For 5 seconds, deal 10 damage.".data)]
            "description".data
            (replaceFirst "For 5 seconds, deal 10 damage.".data
              "For 5 seconds".data "For 4 seconds".data)))
        ⟨0, 0, []⟩ =
      some (alSet [(natKey 200, [("name".data, "X".data),
          ("description".data, "For 5 seconds, deal 10 damage.".data)])]
          (natKey 200)
          (alSet [("name".data, "X".data),
            ("description".data, "For 5 seconds, deal 10 damage.".data)]
            "description".data
            (replaceFirst "For 5 seconds, deal 10 damage.".data
              "For 5 seconds".data "For 4 seconds".data)),
        ⟨0, 1, [.descNoMatch 200 "X".data "For 5 seconds".data
          "description".data
          (replaceFirst "For 5 seconds, deal 10 damage.".data
            "For 5 seconds".data "For 4 seconds".data)]⟩)) :=
  ⟨⟨by decide, by decide⟩,
   desc_edit_twice_fails_when_gone
     ⟨200, "description".data, "For 5 seconds".data, "For 4 seconds".data⟩
     [(natKey 200, [("name".data, "X".data),
       ("description".data, "For 5 seconds, deal 10 damage.".data)])]
     [("name".data, "X".data),
       ("description".data, "For 5 seconds, deal 10 damage.".data)]
     "For 5 seconds, deal 10 damage.".data "X".data
     (by decide) (by decide) (by decide) (by decide) (by decide)⟩

set_option maxRecDepth 10000 in
/-- C7: successful runs of either editor of the non-PvP script preserve
the key list of the store and the field list of every record — fields
are only overwritten, never created, and no record is added or dropped —
and a description record's `name` value is untouched whenever no edit in
the list targets the `name` field, which is the case for the actual
change tables of both scripts. -/
theorem editors_preserve_shape :
    (∀ (cs : List (Nat × List (Str × ℚ))) (st st' : MStore)
      (acc acc' : MAcc), applyMechChanges1 cs st acc = some (st', acc') →
      keyList st' = keyList st ∧
      ∀ k r', alGet st' k = some r' →
        ∃ r, alGet st k = some r ∧ keyList r' = keyList r) ∧
    (∀ (cs : List DescEdit) (st st' : DStore) (acc acc' : DAcc),
      applyDescChanges1 cs st acc = some (st', acc') →
      keyList st' = keyList st ∧
      ∀ k r', alGet st' k = some r' →
        ∃ r, alGet st k = some r ∧ keyList r' = keyList r ∧
          ((∀ e ∈ cs, e.field ≠ "name".data) →
            alGet r' "name".data = alGet r "name".data)) ∧
    (∀ e ∈ descChanges1, e.field ≠ "name".data) ∧
    (∀ e ∈ descChangesP, e.field ≠ "name".data) := by
  refine ⟨fun cs st st' acc acc' h =>
      applyMechChanges1_shape cs st st' acc acc' h, ?_, by decide, by decide⟩
  intro cs st st' acc acc' h
  obtain ⟨hkeys, hrec⟩ := applyDescChanges1_shape cs st st' acc acc' h
  refine ⟨hkeys, ?_⟩
  intro k r' hk
  obtain ⟨r, hr, hkl, hfr⟩ := hrec k r' hk
  exact ⟨r, hr, hkl, fun hname => hfr "name".data hname⟩

/-- Witness for C7: a one-edit mechanical run and a one-edit description
run, with the preservation conclusions instantiated on them. -/
theorem editors_preserve_shape_witness :
    (applyMechChanges1 [(100, [("energy".data, (5 : ℚ))])]
        [(natKey 100, [("energy".data, (10 : ℚ)), ("recharge".data, 20)])]
        ⟨0, []⟩ =
      some ([(natKey 100, [("energy".data, (5 : ℚ)), ("recharge".data, 20)])],
        ⟨1, [.mechSet 100 "energy".data 10 5]⟩) ∧
      keyList [(natKey 100, [("energy".data, (5 : ℚ)), ("recharge".data, 20)])]
        = keyList [(natKey 100,
            [("energy".data, (10 : ℚ)), ("recharge".data, 20)])] ∧
      ∀ k r', alGet [(natKey 100,
          [("energy".data, (5 : ℚ)), ("recharge".data, 20)])] k = some r' →
        ∃ r, alGet [(natKey 100,
            [("energy".data, (10 : ℚ)), ("recharge".data, 20)])] k = some r ∧
          keyList r' = keyList r) ∧
    (applyDescChanges1 [⟨3, "description".data, "A".data, "Z".data⟩]
        [(natKey 3, [("name".data, "N".data), ("description".data, "AA".data)])]
        ⟨0, 0, []⟩ =
      some ([(natKey 3, [("name".data, "N".data),
          ("description".data, "ZA".data)])],
        ⟨1, 0, [.descOk 3 "N".data "description".data "A".data "Z".data]⟩) ∧
      ∀ k r', alGet [(natKey 3, [("name".data, "N".data),
          ("description".data, "ZA".data)])] k = some r' →
        ∃ r, alGet [(natKey 3, [("name".data, "N".data),
            ("description".data, "AA".data)])] k = some r ∧
          keyList r' = keyList r ∧
          ((∀ e ∈ [(⟨3, "description".data, "A".data, "Z".data⟩ : DescEdit)],
              e.field ≠ "name".data) →
            alGet r' "name".data = alGet r "name".data)) := by
  have h1 := editors_preserve_shape.1 [(100, [("energy".data, (5 : ℚ))])]
    [(natKey 100, [("energy".data, (10 : ℚ)), ("recharge".data, 20)])]
    [(natKey 100, [("energy".data, (5 : ℚ)), ("recharge".data, 20)])]
    ⟨0, []⟩ ⟨1, [.mechSet 100 "energy".data 10 5]⟩ (by rfl)
  have h2 := editors_preserve_shape.2.1
    [⟨3, "description".data, "A".data, "Z".data⟩]
    [(natKey 3, [("name".data, "N".data), ("description".data, "AA".data)])]
    [(natKey 3, [("name".data, "N".data), ("description".data, "ZA".data)])]
    ⟨0, 0, []⟩
    ⟨1, 0, [.descOk 3 "N".data "description".data "A".data "Z".data]⟩ (by rfl)
  exact ⟨⟨by rfl, h1.1, h1.2⟩, ⟨by rfl, h2.2⟩⟩

/-- C8: both description loops are strictly sequential — processing
`xs ++ ys` equals processing `xs` and then processing `ys` from the
store and accumulator it produced, so each later edit's precondition
check and replacement read the field value produced by all earlier edits
in the list. -/
theorem desc_edits_sequential :
    (∀ (xs ys : List DescEdit) (st : DStore) (acc : DAcc),
      applyDescChanges1 (xs ++ ys) st acc =
        (applyDescChanges1 xs st acc).bind
          (fun p => applyDescChanges1 ys p.1 p.2)) ∧
    (∀ (xs ys : List DescEdit) (st : DStore) (acc : PAcc),
      pvpDescChanges (xs ++ ys) st acc =
        (pvpDescChanges xs st acc).bind
          (fun p => pvpDescChanges ys p.1 p.2)) ∧
    (∀ (xs : List DescEdit) (e : DescEdit) (es : List DescEdit)
      (st st1 : DStore) (acc acc1 : DAcc),
      applyDescChanges1 xs st acc = some (st1, acc1) →
      applyDescChanges1 (xs ++ e :: es) st acc =
        applyDescChanges1 (e :: es) st1 acc1) := by
  refine ⟨applyDescChanges1_append, pvpDescChanges_append, ?_⟩
  intro xs e es st st1 acc acc1 h
  rw [applyDescChanges1_append, h]
  rfl

/-- C10: a resolved record lacking a field named by an edit makes the
loop abort with an uncaught `KeyError` (modelled as `none`) instead of a
counted failure: a mechanical update field, a description field read,
or the `name` field read for the diagnostic line; and the loops return a
result (`isSome`) whenever every field named by an edit — plus `name`
for description edits — exists in every resolved record. -/
theorem edit_loops_keyerror_totality :
    (∀ (id : Nat) (f : Str) (v : ℚ) (fus : List (Str × ℚ))
      (cs : List (Nat × List (Str × ℚ))) (st : MStore) (acc : MAcc)
      (r : MRec), alGet st (natKey id) = some r → alGet r f = none →
      applyMechChanges1 ((id, (f, v) :: fus) :: cs) st acc = none) ∧
    (∀ (e : DescEdit) (es : List DescEdit) (st : DStore) (acc : DAcc)
      (r : DRec), alGet st (natKey e.id) = some r →
      alGet r e.field = none →
      applyDescChanges1 (e :: es) st acc = none) ∧
    (∀ (e : DescEdit) (es : List DescEdit) (st : DStore) (acc : DAcc)
      (r : DRec) (cur : Str), alGet st (natKey e.id) = some r →
      alGet r e.field = some cur → occursIn e.old cur = false →
      alGet r "name".data = none →
      applyDescChanges1 (e :: es) st acc = none) ∧
    (∀ (e : DescEdit) (es : List DescEdit) (st : DStore) (acc : PAcc)
      (r : DRec), alGet st (natKey e.id) = some r →
      alGet r e.field = none →
      pvpDescChanges (e :: es) st acc = none) ∧
    (∀ (cs : List (Nat × List (Str × ℚ))) (st : MStore) (acc : MAcc),
      MechPre st cs → (applyMechChanges1 cs st acc).isSome = true) ∧
    (∀ (cs : List DescEdit) (st : DStore) (acc : DAcc),
      DescPre st cs → (applyDescChanges1 cs st acc).isSome = true) := by
  refine ⟨?_, ?_, ?_, ?_, applyMechChanges1_total, applyDescChanges1_total⟩
  · intro id f v fus cs st acc r hr hf
    have hk : hasKey st (natKey id) = true := by simp [hasKey, hr]
    simp only [applyMechChanges1, hk, if_true, mechFields, hr, hf]
  · intro e es st acc r hr hf
    simp only [applyDescChanges1, hr, hf]
  · intro e es st acc r cur hr hc ho hn
    simp only [applyDescChanges1, hr, hc, ho, Bool.false_eq_true, if_false, hn]
  · intro e es st acc r hr hf
    simp only [pvpDescChanges, hr, hf]

/-- Witness for C10: a record without the edited field makes both loops
return `none`; empty-store runs satisfy the preconditions and are
`some`. -/
theorem edit_loops_keyerror_totality_witness :
    (alGet [(natKey 5, ([] : MRec))] (natKey 5) = some [] ∧
      alGet ([] : MRec) "energy".data = none ∧
      applyMechChanges1 [(5, [("energy".data, (1 : ℚ))])]
        [(natKey 5, [])] ⟨0, []⟩ = none) ∧
    (alGet [(natKey 5, ([] : DRec))] (natKey 5) = some [] ∧
      alGet ([] : DRec) "description".data = none ∧
      applyDescChanges1 [⟨5, "description".data, "a".data, "b".data⟩]
        [(natKey 5, [])] ⟨0, 0, []⟩ = none) ∧
    (MechPre [] [] ∧
      (applyMechChanges1 [] ([] : MStore) ⟨0, []⟩).isSome = true) ∧
    (DescPre [] [] ∧
      (applyDescChanges1 [] ([] : DStore) ⟨0, 0, []⟩).isSome = true) := by
  refine ⟨⟨by decide, by decide, ?_⟩, ⟨by decide, by decide, ?_⟩, ⟨?_, ?_⟩,
    ⟨?_, ?_⟩⟩
  · exact edit_loops_keyerror_totality.1 5 "energy".data 1 [] []
      [(natKey 5, [])] ⟨0, []⟩ [] (by decide) (by decide)
  · exact edit_loops_keyerror_totality.2.1
      ⟨5, "description".data, "a".data, "b".data⟩ [] [(natKey 5, [])]
      ⟨0, 0, []⟩ [] (by decide) (by decide)
  · exact fun c hc => absurd hc (List.not_mem_nil c)
  · exact edit_loops_keyerror_totality.2.2.2.2.1 [] [] ⟨0, []⟩
      (fun c hc => absurd hc (List.not_mem_nil c))
  · exact fun e he => absurd he (List.not_mem_nil e)
  · exact edit_loops_keyerror_totality.2.2.2.2.2 [] [] ⟨0, 0, []⟩
      (fun e he => absurd he (List.not_mem_nil e))

/-- C9: structural format of `save_json` (`json.dump` with
`ensure_ascii=False, indent='\t'` plus one written newline), for every
number rendering.  An object document ends in `}` followed by exactly
the single trailing newline; a string of characters at or above U+0020
other than the quote and the backslash — in particular any non-ASCII
text — is emitted verbatim between quotes; every member of an object
serialized at depth `d` appears as a newline, `d + 1` tabs, its quoted
key, a colon-space, and its value serialized at depth `d + 1`; and the
same member of two documents contributes the identical byte run, so
records untouched by the batch are reproduced byte-for-byte. -/
theorem save_json_format :
    (∀ (rnum : ℚ → Str) (ms : JMembers),
      ∃ t, saveJson rnum (.jobj ms) = t ++ ['}', '\n']) ∧
    (∀ (rnum : ℚ → Str) (d : Nat) (s : Str),
      (∀ c ∈ s, 32 ≤ c.toNat ∧ c ≠ '"' ∧ c ≠ '\\') →
      dumpJ rnum d (.jstr s) = '"' :: (s ++ ['"'])) ∧
    (∀ (rnum : ℚ → Str) (d : Nat) (k : Str) (v : JVal) (ms : JMembers),
      MemberOf k v ms →
      ∃ p q, dumpJ rnum d (.jobj ms) = p ++ memberSeg rnum d k v ++ q) ∧
    (∀ (rnum : ℚ → Str) (d : Nat) (k : Str) (v : JVal)
      (ms1 ms2 : JMembers), MemberOf k v ms1 → MemberOf k v ms2 →
      ∃ p q p' q',
        dumpJ rnum d (.jobj ms1) = p ++ memberSeg rnum d k v ++ q ∧
        dumpJ rnum d (.jobj ms2) = p' ++ memberSeg rnum d k v ++ q') := by
  refine ⟨?_, ?_, dumpJ_member, ?_⟩
  · intro rnum ms
    obtain ⟨t, ht⟩ := dumpMems_ends_brace rnum 0 ms
    refine ⟨'{' :: t, ?_⟩
    rw [saveJson, show dumpJ rnum 0 (.jobj ms) = '{' :: dumpMems rnum 0 ms
      from rfl, ht]
    simp [List.cons_append, List.append_assoc]
  · intro rnum d s h
    rw [show dumpJ rnum d (.jstr s) = quoteJ s from rfl, quoteJ, escStr_id s h]
  · intro rnum d k v ms1 ms2 h1 h2
    obtain ⟨p, q, hpq⟩ := dumpJ_member rnum d k v ms1 h1
    obtain ⟨p', q', hpq'⟩ := dumpJ_member rnum d k v ms2 h2
    exact ⟨p, q, p', q', hpq, hpq'⟩

/-- Witness for C9: a two-member and a one-member document sharing the
member `("a", "xä")` (one non-ASCII character), with the format
properties instantiated on them. -/
theorem save_json_format_witness :
    ((∀ c ∈ ("xä".data : Str), 32 ≤ c.toNat ∧ c ≠ '"' ∧ c ≠ '\\') ∧
      dumpJ (fun _ => ['0']) 0 (.jstr "xä".data) =
        '"' :: ("xä".data ++ ['"'])) ∧
    (MemberOf "a".data (.jstr "xä".data)
        (.cons "a".data (.jstr "xä".data) (.cons "b".data (.jnum 1) .nil)) ∧
      MemberOf "a".data (.jstr "xä".data)
        (.cons "a".data (.jstr "xä".data) .nil) ∧
      ∃ p q p' q',
        dumpJ (fun _ => ['0']) 0
            (.jobj (.cons "a".data (.jstr "xä".data)
              (.cons "b".data (.jnum 1) .nil))) =
          p ++ memberSeg (fun _ => ['0']) 0 "a".data (.jstr "xä".data) ++ q ∧
        dumpJ (fun _ => ['0']) 0
            (.jobj (.cons "a".data (.jstr "xä".data) .nil)) =
          p' ++ memberSeg (fun _ => ['0']) 0 "a".data (.jstr "xä".data) ++ q') :=
  ⟨⟨by decide, save_json_format.2.1 (fun _ => ['0']) 0 "xä".data (by decide)⟩,
   ⟨Or.inl ⟨rfl, rfl⟩, Or.inl ⟨rfl, rfl⟩,
    save_json_format.2.2.2 (fun _ => ['0']) 0 "a".data (.jstr "xä".data)
      (.cons "a".data (.jstr "xä".data) (.cons "b".data (.jnum 1) .nil))
      (.cons "a".data (.jstr "xä".data) .nil)
      (Or.inl ⟨rfl, rfl⟩) (Or.inl ⟨rfl, rfl⟩)⟩⟩
